import Mathlib

/-!
Verification of the mtpsync synchronization engine.

The Lean definitions below are a shallow embedding of the Python sources:

* `src/mtpsync/sync.py`   — the `SyncEngine` (verify / execute flows),
* `src/mtpsync/models.py` — `FileNode` / `FolderNode` / `IDEntry`,
* `src/mtp_client.py`     — the device collaborator (`download` / `upload` / `mkdir`),
* `src/utils/retries.py`  — the `with_retry` decorator,
* the JSON plan persistence (`json.dump(plan, f, indent=2)` / `json.load`).

Paths are strings; machine state (the client's `path_map` / `id_map`, folder
children, device contents, scratch files under `/tmp/mtpsync`, and persisted
plan documents) is threaded explicitly.  Python exceptions are modelled with
`Except` / explicit error results, and the device and host filesystem are
modelled as data inside the state, with failure injection points in the
configuration mirroring the failure modes of the real collaborators.
-/

/-! ### Association-list maps (Python `dict` with insertion order) -/

/-- Lookup in an insertion-ordered association list (`d[k]` / `k in d`). -/
def lookupA {α β : Type} [DecidableEq α] : List (α × β) → α → Option β
  | [], _ => none
  | (k, v) :: rest, a => if k = a then some v else lookupA rest a

/-- `d[k] = v`: overwrite in place if the key exists, else append (Python
dict-assignment semantics, preserving insertion order). -/
def putA {α β : Type} [DecidableEq α] : List (α × β) → α → β → List (α × β)
  | [], k, v => [(k, v)]
  | (k0, v0) :: rest, k, v =>
    if k0 = k then (k0, v) :: rest else (k0, v0) :: putA rest k v

/-- Delete a key (used for `Path.unlink` on the scratch-file table). -/
def removeA {α β : Type} [DecidableEq α] : List (α × β) → α → List (α × β)
  | [], _ => []
  | (k0, v0) :: rest, k => if k0 = k then rest else (k0, v0) :: removeA rest k

/-! ### Path helpers (`os.path` on POSIX, as used by `sync.py`) -/

/-- `pre` is a prefix of `l` (character-list version). -/
def listPre : List Char → List Char → Bool
  | [], _ => true
  | _ :: _, [] => false
  | p :: ps, c :: cs => p = c && listPre ps cs

/-- `s.startswith(pre)`. -/
def strStarts (s pre : String) : Bool := listPre pre.data s.data

/-- `s.endswith("/")`. -/
def endsWithSlash (s : String) : Bool :=
  match s.data.getLast? with
  | some c => c = '/'
  | none => false

/-- Python `s.split("/")` on character lists: always returns at least one
group, empty components for consecutive separators. -/
def splitSlashChars : List Char → List (List Char)
  | [] => [[]]
  | c :: rest =>
    match splitSlashChars rest with
    | [] => [[]]
    | grp :: grps => if c = '/' then [] :: grp :: grps else (c :: grp) :: grps

/-- Python `s.split("/")`. -/
def splitSlash (s : String) : List String :=
  (splitSlashChars s.data).map (fun l => String.mk l)

/-- `"/".join(parts)`. -/
def joinSlash : List String → String
  | [] => ""
  | [s] => s
  | s :: rest => s ++ "/" ++ joinSlash rest

/-- Drop trailing `'/'` characters (the `rstrip('/')` inside `dirname`). -/
def stripTrailingSlashes (l : List Char) : List Char :=
  (l.reverse.dropWhile (fun c => c = '/')).reverse

/-- Component loop of CPython `posixpath.normpath`: `acc` is the reversed
`new_comps` list being built. -/
def normComps (slashes : Nat) : List String → List String → List String
  | [], acc => acc
  | comp :: rest, acc =>
    if comp = "" ∨ comp = "." then normComps slashes rest acc
    else if comp ≠ ".." ∨ (slashes = 0 ∧ acc = []) ∨ (acc ≠ [] ∧ acc.headD "" = "..") then
      normComps slashes rest (comp :: acc)
    else if acc ≠ [] then normComps slashes rest acc.tail
    else normComps slashes rest acc

/-- CPython `posixpath.normpath`, transcribed: collapses `.` and empty
components, resolves `..`, and preserves the special leading `//`. -/
def normpath (p : String) : String :=
  if p = "" then "." else
  let slashes : Nat :=
    if strStarts p "//" ∧ ¬ strStarts p "///" then 2
    else if strStarts p "/" then 1 else 0
  let comps := splitSlash p
  let newComps := (normComps slashes comps []).reverse
  let joined := joinSlash newComps
  let res := String.mk (List.replicate slashes '/') ++ joined
  if res = "" then "." else res

/-- `posixpath.dirname`: everything before the final slash, with trailing
slashes stripped unless the head is all slashes. -/
def dirname (p : String) : String :=
  let r := p.data.reverse
  let r2 := r.dropWhile (fun c => c ≠ '/')
  let head := r2.reverse
  if head.isEmpty then ""
  else if head.all (fun c => c = '/') then String.mk head
  else String.mk (stripTrailingSlashes head)

/-- `posixpath.basename`: everything after the final slash. -/
def basename (p : String) : String :=
  String.mk ((p.data.reverse.takeWhile (fun c => c ≠ '/')).reverse)

/-! ### JSON plan documents

`SyncEngine.verify` persists the execution plan with
`json.dump(execution_plan, f, indent=2)` and `SyncEngine.execute` reloads it
with `json.load(f)`.  The documents are flat JSON objects mapping strings to
strings.  `encode_plan` transcribes CPython's `json.dump` output for such an
object with `indent=2` (default separators and `ensure_ascii=True`, so
non-ASCII and control characters are `\uXXXX`-escaped, astral code points as
surrogate pairs); `parse_plan` transcribes the `json.load` side restricted to
flat string-to-string objects, returning the key/value pairs in document
order (for the duplicate-free documents produced by dumping a `dict`, this
is the same mapping `json.load` builds). -/

def obrace : Char := Char.ofNat 123

def cbrace : Char := Char.ofNat 125

/-- Lower-case hex digit, as in CPython's `'\u%04x' % n` formatting. -/
def hexDigitChar (n : Nat) : Char :=
  if n < 10 then Char.ofNat (48 + n) else Char.ofNat (87 + n)

/-- Four-digit lower-case hex rendering of `n < 0x10000`. -/
def hex4 (n : Nat) : List Char :=
  [hexDigitChar (n / 4096 % 16), hexDigitChar (n / 256 % 16),
   hexDigitChar (n / 16 % 16), hexDigitChar (n % 16)]

/-- `\uXXXX` escape of a code point; astral code points become a UTF-16
surrogate pair, exactly as CPython's `json` encoder emits them. -/
def uEscape (n : Nat) : List Char :=
  if n < 0x10000 then '\\' :: 'u' :: hex4 n
  else
    let m := n - 0x10000
    ('\\' :: 'u' :: hex4 (0xD800 + m / 0x400)) ++ ('\\' :: 'u' :: hex4 (0xDC00 + m % 0x400))

/-- Escape of one character inside a JSON string, per CPython's
`ESCAPE_ASCII` replacement table (`ensure_ascii=True`). -/
def escapeChar (c : Char) : List Char :=
  if c = '"' then ['\\', '"']
  else if c = '\\' then ['\\', '\\']
  else if c = '\x08' then ['\\', 'b']
  else if c = '\x0c' then ['\\', 'f']
  else if c = '\n' then ['\\', 'n']
  else if c = '\r' then ['\\', 'r']
  else if c = '\t' then ['\\', 't']
  else if c.toNat < 0x20 ∨ 0x7e < c.toNat then uEscape c.toNat
  else [c]

/-- Escape a whole character sequence. -/
def escapeChars (l : List Char) : List Char := (l.map escapeChar).flatten

/-- A JSON string literal: `"` + escaped content + `"`. -/
def jsonStr (s : String) : String := "\"" ++ String.mk (escapeChars s.data) ++ "\""

/-- The `indent=2` item list: items separated by `",\n  "` with the default
`": "` key separator. -/
def planItems : List (String × String) → String
  | [] => ""
  | [(k, v)] => jsonStr k ++ ": " ++ jsonStr v
  | (k, v) :: rest => jsonStr k ++ ": " ++ jsonStr v ++ ",\n  " ++ planItems rest

/-- `json.dump(plan, f, indent=2)` for a flat string-to-string object. -/
def encode_plan (m : List (String × String)) : String :=
  match m with
  | [] => "\x7b\x7d"
  | _ => "\x7b\n  " ++ planItems m ++ "\n\x7d"

/-- JSON whitespace. -/
def isJsonWs (c : Char) : Bool := c = ' ' ∨ c = '\t' ∨ c = '\n' ∨ c = '\r'

/-- Skip leading JSON whitespace. -/
def skipWs : List Char → List Char
  | [] => []
  | c :: cs => if isJsonWs c then skipWs cs else c :: cs

/-- Value of one hex digit (`json` accepts both cases). -/
def hexVal (c : Char) : Option Nat :=
  if '0' ≤ c ∧ c ≤ '9' then some (c.toNat - '0'.toNat)
  else if 'a' ≤ c ∧ c ≤ 'f' then some (c.toNat - 'a'.toNat + 10)
  else if 'A' ≤ c ∧ c ≤ 'F' then some (c.toNat - 'A'.toNat + 10)
  else none

/-- Value of a four-digit hex sequence. -/
def hex4Val (a b c d : Char) : Option Nat := do
  let x ← hexVal a
  let y ← hexVal b
  let z ← hexVal c
  let w ← hexVal d
  pure (x * 4096 + y * 256 + z * 16 + w)

/-- One-character escapes accepted after a backslash (`py_scanstring`'s
`BACKSLASH` table). -/
def shortEscape (c : Char) : Option Char :=
  if c = '"' then some '"'
  else if c = '\\' then some '\\'
  else if c = '/' then some '/'
  else if c = 'b' then some '\x08'
  else if c = 'f' then some '\x0c'
  else if c = 'n' then some '\n'
  else if c = 'r' then some '\r'
  else if c = 't' then some '\t'
  else none

/-- Decode a `\uXXXX` escape whose `\u` has already been consumed: reads the
four hex digits, and on a high surrogate insists on an immediately following
low-surrogate `\uXXXX`, combining the pair into one code point (as `json`'s
`py_scanstring` does).  `rec` continues scanning the remainder of the string
body. -/
def parseAfterU (rec : List Char → Option (List Char × List Char)) :
    List Char → Option (List Char × List Char)
  | h1 :: h2 :: h3 :: h4 :: rest3 =>
    match hex4Val h1 h2 h3 h4 with
    | none => none
    | some n =>
      if 0xD800 ≤ n ∧ n < 0xDC00 then
        match rest3 with
        | b1 :: b2 :: g1 :: g2 :: g3 :: g4 :: rest4 =>
          if b1 = '\\' ∧ b2 = 'u' then
            match hex4Val g1 g2 g3 g4 with
            | none => none
            | some m =>
              if 0xDC00 ≤ m ∧ m < 0xE000 then
                (rec rest4).map
                  (fun p => (Char.ofNat (0x10000 + (n - 0xD800) * 0x400 + (m - 0xDC00)) :: p.1, p.2))
              else none
          else none
        | _ => none
      else if 0xDC00 ≤ n ∧ n < 0xE000 then none
      else (rec rest3).map (fun p => (Char.ofNat n :: p.1, p.2))
  | _ => none

/-- Scan a JSON string body up to the closing quote, decoding escapes and
recombining surrogate pairs, as `json`'s `py_scanstring` does in strict mode
(raw control characters are rejected; a lone surrogate would denote a
codepoint `String` cannot carry, so it is rejected rather than produced).
`fuel` bounds the recursion; one unit is spent per produced character, so
any fuel above the document length is enough. -/
def parseStringBody : Nat → List Char → Option (List Char × List Char)
  | 0, _ => none
  | _ + 1, [] => none
  | fuel + 1, c :: rest =>
    if c = '"' then some ([], rest)
    else if c = '\\' then
      match rest with
      | [] => none
      | e :: rest2 =>
        if e = 'u' then parseAfterU (parseStringBody fuel) rest2
        else
          match shortEscape e with
          | none => none
          | some ch => (parseStringBody fuel rest2).map (fun p => (ch :: p.1, p.2))
    else if c.toNat < 0x20 then none
    else (parseStringBody fuel rest).map (fun p => (c :: p.1, p.2))

/-- Parse a JSON string literal (opening quote included). -/
def parseJString (fuel : Nat) (cs : List Char) : Option (String × List Char) :=
  match cs with
  | [] => none
  | c :: rest =>
    if c = '"' then (parseStringBody fuel rest).map (fun p => (String.mk p.1, p.2))
    else none

/-- Parse the members of a non-empty object: `"k": "v"` pairs separated by
commas, ending at the closing brace.  `sfuel` is passed through to the
string scanner; `pfuel` bounds the number of pairs (the caller passes the
document length for both, an upper bound on each). -/
def parsePairs (sfuel : Nat) : Nat → List Char → Option (List (String × String) × List Char)
  | 0, _ => none
  | pfuel + 1, cs =>
    match parseJString sfuel cs with
    | none => none
    | some (k, cs1) =>
      match skipWs cs1 with
      | ':' :: cs2 =>
        match parseJString sfuel (skipWs cs2) with
        | none => none
        | some (v, cs3) =>
          match skipWs cs3 with
          | ',' :: cs4 =>
            match parsePairs sfuel pfuel (skipWs cs4) with
            | none => none
            | some (ps, cs5) => some ((k, v) :: ps, cs5)
          | c :: cs4 => if c = cbrace then some ([(k, v)], cs4) else none
          | [] => none
      | _ => none

/-- `json.load` of a whole document, restricted to a flat string-to-string
object (the only shape `verify` ever persists): requires a single object
covering the entire input up to trailing whitespace. -/
def parse_plan (s : String) : Option (List (String × String)) :=
  match skipWs s.data with
  | [] => none
  | c :: cs1 =>
    if c = obrace then
      match skipWs cs1 with
      | [] => none
      | c2 :: cs2 =>
        if c2 = cbrace then
          if (skipWs cs2).isEmpty then some [] else none
        else
          match parsePairs (s.data.length + 1) (s.data.length + 1) (c2 :: cs2) with
          | none => none
          | some (ps, rest) => if (skipWs rest).isEmpty then some ps else none
    else none

/-! ### Retry policy (`src/utils/retries.py`)

`with_retry(max_retries, backoff_factor, exceptions)` wraps a function in a
`while retry_count <= max_retries` loop: a failure whose type is in
`exceptions` bumps `retry_count`, and when the budget is not yet exhausted
sleeps `backoff_factor ** retry_count + random.uniform(0, 1)` and retries;
when it is exhausted the loop breaks and the last exception is re-raised.
A failure outside `exceptions` is not caught and propagates directly. -/

/-- Python exception values raised by the modelled code paths (all are
`Exception` subclasses). -/
inductive PyErr
  | valueError (msg : String)
  | runtimeError (msg : String)
  | fileNotFound (msg : String)
  | ioError (msg : String)
  | nameError (msg : String)
deriving DecidableEq

/-- Result of one invocation of a wrapped operation. -/
inductive Outcome (ε α : Type)
  | ok (a : α)
  | err (e : ε)
deriving DecidableEq

/-- What the wrapper itself produces: a value, a (re-)raised exception, or
the defensive `raise RuntimeError` after the loop (unreachable when the
loop ran at least once). -/
inductive RetryOutcome (ε α : Type)
  | ok (a : α)
  | err (e : ε)
  | runtimeFallback
deriving DecidableEq

/-- Observable result of a wrapped call: outcome, number of invocations of
the wrapped function, and the sequence of sleep durations. -/
structure RetryResult (ε α : Type) where
  result : RetryOutcome ε α
  calls : Nat
  sleeps : List ℚ
deriving DecidableEq

/-- The `while retry_count <= max_retries` loop of `with_retry`
(retries.py 39-59), transcribed.  `op i` is the outcome of the `i`-th
invocation (0-based); `jitter k` is the `random.uniform(0, 1)` sample drawn
before the `k`-th re-attempt; `fuel` counts the remaining loop iterations
(`max_retries + 1 - retry_count`), so `fuel = 0` is the guard failing, after
which the last exception is re-raised (retries.py 62-66). -/
def retryGo {ε α : Type} (maxR : Nat) (backoff : ℚ) (retryable : ε → Bool)
    (jitter : Nat → ℚ) (op : Nat → Outcome ε α) :
    Nat → Nat → Nat → List ℚ → Option ε → RetryResult ε α
  | 0, calls, _, sleeps, last =>
    match last with
    | some e => ⟨.err e, calls, sleeps⟩
    | none => ⟨.runtimeFallback, calls, sleeps⟩
  | fuel + 1, calls, retry_count, sleeps, _last =>
    match op calls with
    | .ok a => ⟨.ok a, calls + 1, sleeps⟩
    | .err e =>
      if retryable e then
        if retry_count + 1 > maxR then ⟨.err e, calls + 1, sleeps⟩
        else retryGo maxR backoff retryable jitter op fuel (calls + 1) (retry_count + 1)
          (sleeps ++ [backoff ^ (retry_count + 1) + jitter (retry_count + 1)]) (some e)
      else ⟨.err e, calls + 1, sleeps⟩

/-- `with_retry(max_retries, backoff_factor, exceptions)` applied to an
operation: enter the loop with `retry_count = 0` and no last exception. -/
def with_retry {ε α : Type} (maxR : Nat) (backoff : ℚ) (retryable : ε → Bool)
    (jitter : Nat → ℚ) (op : Nat → Outcome ε α) : RetryResult ε α :=
  retryGo maxR backoff retryable jitter op (maxR + 1) 0 0 [] none

/-- config.py: `MAX_RETRIES = 3`. -/
def MAX_RETRIES : Nat := 3

/-- config.py: `RETRY_BACKOFF_FACTOR = 2`. -/
def RETRY_BACKOFF_FACTOR : ℚ := 2

/-- The decorator's default retryable set, `exceptions=(Exception,)`
(retries.py line 20): every exception the modelled operations raise is an
`Exception` instance, so the default classifier accepts every error. -/
def defaultRetryable {ε : Type} : ε → Bool := fun _ => true

/-- The sleep sequence the wrapper produces after `n` retryable failures:
the `k`-th re-attempt (1-based) is preceded by a sleep of
`backoff_factor ^ k + uniform(0,1)`. -/
def sleepSpec (backoff : ℚ) (jitter : Nat → ℚ) (n : Nat) : List ℚ :=
  (List.range n).map (fun k => backoff ^ (k + 1) + jitter (k + 1))

/-! ### Data model (`src/mtpsync/models.py`) -/

/-- `FileNode` / `FolderNode`: the nodes stored in `path_map`.  Python holds
shared object references; here a folder's `children` dict lives in a
separate state table keyed by the folder's device id (device ids are
unique), so a mutation through one alias is visible through every alias,
as with shared Python objects. -/
inductive Node
  | file (id : Nat) (size : Nat)
  | folder (id : Nat)
deriving DecidableEq

/-- The `id` attribute common to both node classes. -/
def Node.id : Node → Nat
  | .file i _ => i
  | .folder i => i

/-- `IDEntry` (models.py 26-32): element, full path, parent back-reference. -/
structure IDEntry where
  element : Node
  full_path : String
  parent : Option Node
deriving DecidableEq

/-- Observable trace events: the device calls the client makes, plus the
executor's per-entry processing markers (pure instrumentation recording the
order in which `execute`'s two phase loops reach their entries). -/
inductive Event
  | mkdirCall (parent_id : Nat) (name : String)
  | uploadCall (parent_id : Nat) (name : String)
  | downloadCall (file_id : Nat)
  | ensureDirCall (rel_path : String)
  | syncFileCall (rel_path : String)
deriving DecidableEq

/-- Machine state threaded through the engine: the client's two indexes and
the shared folder-children tables, the device-side file contents, the host
scratch files under `TEMP_DIR`, the persisted plan documents, the device's
fresh-id counter, the `uuid4` source for retry-plan names, and the event
trace. -/
structure SyncState where
  path_map : List (String × Node)
  id_map : List (Nat × IDEntry)
  children : List (Nat × List (String × Node))
  remote : List (Nat × List Nat)
  temp : List (String × List Nat)
  planFiles : List (String × String)
  nextId : Nat
  uuid : Nat
  events : List Event
deriving DecidableEq

/-- A local filesystem entry as `_scan_source_directory` sees it. -/
inductive SourceEntry
  | dir
  | file (content : List Nat)
deriving DecidableEq

/-- The local tree under `source_dir`: whether the root exists, and the
relative-path manifest `os.walk` enumerates (directory keys end in `/`,
file keys do not; list order is walk order). -/
structure LocalTree where
  present : Bool
  entries : List (String × SourceEntry)
deriving DecidableEq

/-- Engine configuration (the `SyncEngine` constructor arguments plus the
environment): the digest function behind `calculate_checksum`, and failure
injection points mirroring the real collaborators' failure modes
(`readFails`: host `open`/`read` raising; `mkdirFails` / `uploadFails` /
`downloadFails`: the corresponding `LIBMTP_*` call failing). -/
structure SyncConfig where
  source_dir : String
  dest_path : String
  use_checksum : Bool
  storage_id : Nat
  local_tree : LocalTree
  hash : List Nat → Nat
  readFails : String → Bool
  mkdirFails : String → Bool
  uploadFails : String → Bool
  downloadFails : Nat → Bool

/-- config.py: `TEMP_DIR = Path("/tmp/mtpsync")`. -/
def TEMP_DIR : String := "/tmp/mtpsync"

/-- config.py: `DATA_DIR = BASE_DIR / "data"` (modelled relative to the
application directory). -/
def DATA_DIR : String := "data"

/-- The `__init__` normalization of the destination path (sync.py 58-59). -/
def initDestPath (dest_path : String) : String :=
  if strStarts dest_path "/" then dest_path else "/" ++ dest_path

def addEvent (σ : SyncState) (e : Event) : SyncState := { σ with events := σ.events ++ [e] }

def writeTemp (σ : SyncState) (p : String) (c : List Nat) : SyncState :=
  { σ with temp := putA σ.temp p c }

/-- `if temp_path.exists(): temp_path.unlink()`. -/
def unlinkTemp (σ : SyncState) (p : String) : SyncState :=
  { σ with temp := removeA σ.temp p }

/-- Strip a required leading character sequence. -/
def stripPre : List Char → List Char → Option (List Char)
  | [], l => some l
  | _ :: _, [] => none
  | p :: ps, c :: cs => if p = c then stripPre ps cs else none

/-- Read a file that lives inside the source tree: the host path must be
`source_dir ++ "/" ++ rel` for a file entry of the local tree. -/
def sourceRead (cfg : SyncConfig) (p : String) : Option (List Nat) :=
  match stripPre (cfg.source_dir ++ "/").data p.data with
  | none => none
  | some relChars =>
    match lookupA cfg.local_tree.entries (String.mk relChars) with
    | some (.file content) => some content
    | _ => none

/-- Model of opening and reading a host file: scratch files under
`TEMP_DIR` live in the state's `temp` table, source files in the local
tree. -/
def readHost (cfg : SyncConfig) (σ : SyncState) (p : String) : Option (List Nat) :=
  match lookupA σ.temp p with
  | some c => some c
  | none => sourceRead cfg p

/-- `calculate_checksum(path)` (src/utils/checksum.py 11-30): opens the
file and streams it through the configured digest; `cfg.hash` is the digest
of the file's bytes, and `readFails` injects the `OSError`s that
`open`/`read` can raise. -/
def calculate_checksum (cfg : SyncConfig) (σ : SyncState) (p : String) : Except PyErr Nat :=
  if cfg.readFails p then .error (.ioError p)
  else match readHost cfg σ p with
    | none => .error (.fileNotFound p)
    | some c => .ok (cfg.hash c)

/-! ### Device collaborator (`src/mtp_client.py`) -/

namespace MTPClient

/-- `MTPClient.download` (mtp_client.py 407-442), one attempt: raises
`ValueError` when the file id is absent from the client's `id_map`, derives
the scratch target `TEMP_DIR / basename(full_path)` from the id entry, and
transfers the device bytes to it (`downloadFails` injects
`LIBMTP_Get_File_To_File` failures). -/
def download (cfg : SyncConfig) (file_id : Nat) (σ : SyncState) :
    Except PyErr String × SyncState :=
  let σ := addEvent σ (.downloadCall file_id)
  match lookupA σ.id_map file_id with
  | none => (.error (.valueError "file id not found"), σ)
  | some file_entry =>
    if cfg.downloadFails file_id then (.error (.runtimeError "failed to download"), σ)
    else match lookupA σ.remote file_id with
      | none => (.error (.runtimeError "failed to download"), σ)
      | some content =>
        let target_path := TEMP_DIR ++ "/" ++ basename file_entry.full_path
        (.ok target_path, writeTemp σ target_path content)

/-- `MTPClient.upload` (mtp_client.py 444-488), one attempt: raises
`FileNotFoundError` when the source is missing, sends the bytes
(`uploadFails` injects `LIBMTP_Send_File_From_File` failures) and returns
the device-assigned id.  Note the real client updates neither `id_map` nor
`path_map` here. -/
def upload (cfg : SyncConfig) (source_path : String) (parent_id : Nat) (filename : String)
    (σ : SyncState) : Except PyErr Nat × SyncState :=
  let σ := addEvent σ (.uploadCall parent_id filename)
  match readHost cfg σ source_path with
  | none => (.error (.fileNotFound source_path), σ)
  | some content =>
    if cfg.uploadFails filename then (.error (.runtimeError "failed to upload"), σ)
    else (.ok σ.nextId,
      { σ with nextId := σ.nextId + 1, remote := putA σ.remote σ.nextId content })

/-- `MTPClient.mkdir` (mtp_client.py 490-517), one attempt: creates the
folder on the device and returns its id (`mkdirFails` injects
`LIBMTP_Create_Folder` failures, which the client raises as
`RuntimeError`). -/
def mkdir (cfg : SyncConfig) (parent_id : Nat) (folder_name : String) (_storage_id : Nat)
    (σ : SyncState) : Except PyErr Nat × SyncState :=
  let σ := addEvent σ (.mkdirCall parent_id folder_name)
  if cfg.mkdirFails folder_name then (.error (.runtimeError "failed to create folder"), σ)
  else (.ok σ.nextId, { σ with nextId := σ.nextId + 1 })

end MTPClient

/-! ### Sync engine (`src/mtpsync/sync.py`) -/

namespace SyncEngine

/-- `_scan_source_directory` (sync.py 153-187): enumerates the local tree
into the relative-path manifest (directory keys end in `/`, file keys do
not, paths forward-slashed, `./` stripped — the configured `LocalTree`
already holds the walk's result in that form), raising `FileNotFoundError`
when the source root does not exist. -/
def scan_source_directory (cfg : SyncConfig) : Except PyErr (List (String × String)) :=
  if cfg.local_tree.present then
    .ok (cfg.local_tree.entries.map (fun e =>
      (e.1, match e.2 with | .dir => "dir" | .file _ => "file")))
  else .error (.fileNotFound cfg.source_dir)

/-- `_path_exists_in_dest` (sync.py 189-200). -/
def path_exists_in_dest (σ : SyncState) (full_path : String) : Bool :=
  (lookupA σ.path_map full_path).isSome

/-- `_compare_file` (sync.py 202-244), transcribed.  In checksum mode the
body (download, two digests, conditional unlink, compare) runs inside
`try`, and `except Exception` returns `False`; the unlink (lines 237-238)
is only reached when both digests computed, exactly as in the source.  The
size-only `stat` (line 225) sits outside any `try`, so a missing source
propagates. -/
def compare_file (cfg : SyncConfig) (rel_path dest_full_path : String) (σ : SyncState) :
    Except PyErr (Bool × SyncState) :=
  let source_path := cfg.source_dir ++ "/" ++ rel_path
  match lookupA σ.path_map dest_full_path with
  | none => .ok (false, σ)
  | some (.folder _) => .ok (false, σ)
  | some (.file fid fsize) =>
    if ¬ cfg.use_checksum then
      match sourceRead cfg source_path with
      | none => .error (.fileNotFound source_path)
      | some c => .ok ((c.length = fsize : Bool), σ)
    else
      match MTPClient.download cfg fid σ with
      | (.error _, σ1) => .ok (false, σ1)
      | (.ok temp_path, σ1) =>
        match calculate_checksum cfg σ1 source_path with
        | .error _ => .ok (false, σ1)
        | .ok src_checksum =>
          match calculate_checksum cfg σ1 temp_path with
          | .error _ => .ok (false, σ1)
          | .ok dest_checksum =>
            let σ2 := unlinkTemp σ1 temp_path
            .ok ((src_checksum = dest_checksum : Bool), σ2)

/-- Segment loop of `_ensure_directory` (sync.py 275-310).  On a missing
segment the client's `mkdir` runs, the new `FolderNode` is put into
`path_map` (line 295) and the parent looked up (lines 298-300); then line
302 evaluates `IDEntry(...)` — a name sync.py never imports (line 20 pulls
only `PathMap, IDMap, FolderNode, FileNode` from `.models`) — so Python
raises `NameError`, the surrounding `try` (lines 286-308) catches it, logs,
and returns `False`.  The id-map update and the rest of the loop are
unreachable in the source as written, which the model mirrors. -/
def ensure_directory_go (cfg : SyncConfig) :
    List String → String → Nat → SyncState → Bool × SyncState
  | [], _, _, σ => (true, σ)
  | part :: rest, current_path, current_id, σ =>
    if part = "" then ensure_directory_go cfg rest current_path current_id σ
    else
      let next_path := current_path ++ "/" ++ part
      match lookupA σ.path_map next_path with
      | some node => ensure_directory_go cfg rest next_path node.id σ
      | none =>
        match MTPClient.mkdir cfg current_id part cfg.storage_id σ with
        | (.error _, σ1) => (false, σ1)
        | (.ok new_id, σ1) =>
          let σ2 := { σ1 with path_map := putA σ1.path_map next_path (.folder new_id) }
          (false, σ2)

/-- `_ensure_directory` (sync.py 246-312): normalizes the relative path,
returns `True` immediately when the full path is already indexed, else
walks the segments from the destination root with `current_id = 0`
("Assume root ID is 0", line 273). -/
def ensure_directory (cfg : SyncConfig) (rel_path0 : String) (σ : SyncState) :
    Bool × SyncState :=
  let rel_path := if endsWithSlash rel_path0 then rel_path0 else rel_path0 ++ "/"
  let full_path := normpath (cfg.dest_path ++ "/" ++ rel_path)
  if (lookupA σ.path_map full_path).isSome then (true, σ)
  else
    let path_parts0 := splitSlash rel_path
    let path_parts :=
      match path_parts0.getLast? with
      | some "" => path_parts0.dropLast
      | _ => path_parts0
    ensure_directory_go cfg path_parts cfg.dest_path 0 σ

/-- Map-update block of `_sync_file` (sync.py 375-385): computes
`dest_full_path` (line 376) without ever inserting it into `path_map` (a
dead store), stats the source again for the `FileNode` size (line 377),
registers the node in the parent's `children` (line 380), and then
evaluates `IDEntry(...)` (line 383) — again a name the module never
imports — so `NameError` is raised, the `except` (line 389) logs and
returns `False`, and the `return True` at line 387 is unreachable. -/
def sync_file_update (cfg : SyncConfig) (rel_path : String) (new_id parent_id : Nat)
    (σ : SyncState) : Bool × SyncState :=
  let file_name := basename rel_path
  let _dest_full_path := cfg.dest_path ++ "/" ++ rel_path
  let size := match lookupA cfg.local_tree.entries rel_path with
    | some (.file c) => c.length
    | _ => 0
  let file_node := Node.file new_id size
  let kids := match lookupA σ.children parent_id with
    | some k => k
    | none => []
  let σ1 := { σ with children := putA σ.children parent_id (putA kids file_name file_node) }
  (false, σ1)

/-- Post-upload validation of `_sync_file` (sync.py 359-373): in checksum
mode download the fresh id back, digest both sides, unlink the scratch
copy, and fail the entry on mismatch; then fall through to the map-update
block. -/
def sync_file_validate (cfg : SyncConfig) (rel_path : String) (new_id parent_id : Nat)
    (σ : SyncState) : Bool × SyncState :=
  if cfg.use_checksum then
    match MTPClient.download cfg new_id σ with
    | (.error _, σ1) => (false, σ1)
    | (.ok temp_path, σ1) =>
      match calculate_checksum cfg σ1 (cfg.source_dir ++ "/" ++ rel_path) with
      | .error _ => (false, σ1)
      | .ok src_checksum =>
        match calculate_checksum cfg σ1 temp_path with
        | .error _ => (false, σ1)
        | .ok dest_checksum =>
          let σ2 := unlinkTemp σ1 temp_path
          if ¬ (src_checksum = dest_checksum) then (false, σ2)
          else sync_file_update cfg rel_path new_id parent_id σ2
  else sync_file_update cfg rel_path new_id parent_id σ

/-- `_sync_file` (sync.py 314-391): checks the source exists, ensures the
parent directory, resolves the parent folder node from `path_map`, uploads,
then validates and updates (see `sync_file_validate` / `sync_file_update`). -/
def sync_file (cfg : SyncConfig) (rel_path : String) (σ : SyncState) : Bool × SyncState :=
  match lookupA cfg.local_tree.entries rel_path with
  | none => (false, σ)
  | some _ =>
    let parent_rel0 := dirname rel_path
    let parent_rel_path := if parent_rel0 = "" then "" else parent_rel0 ++ "/"
    let parent_dest_path := normpath (cfg.dest_path ++ "/" ++ parent_rel_path)
    match ensure_directory cfg parent_rel_path σ with
    | (false, σ1) => (false, σ1)
    | (true, σ1) =>
      match lookupA σ1.path_map parent_dest_path with
      | none => (false, σ1)
      | some (.file _ _) => (false, σ1)
      | some (.folder parent_id) =>
        let file_name := basename rel_path
        match MTPClient.upload cfg (cfg.source_dir ++ "/" ++ rel_path) parent_id file_name σ1 with
        | (.error _, σ2) => (false, σ2)
        | (.ok new_id, σ2) => sync_file_validate cfg rel_path new_id parent_id σ2

/-- Plan-building loop of `verify` (sync.py 86-97): an existing path of
kind `file` is content-compared and re-emitted when unequal; a missing path
is emitted with its manifest kind; an existing `dir` is a no-op. -/
def verify_loop (cfg : SyncConfig) :
    List (String × String) → List (String × String) → SyncState →
    Except PyErr (List (String × String) × SyncState)
  | [], plan, σ => .ok (plan, σ)
  | (rel_path, entry_type) :: rest, plan, σ =>
    let dest_full_path := normpath (cfg.dest_path ++ "/" ++ rel_path)
    if path_exists_in_dest σ dest_full_path then
      if entry_type = "file" then
        match compare_file cfg rel_path dest_full_path σ with
        | .error e => .error e
        | .ok (same, σ1) =>
          if same then verify_loop cfg rest plan σ1
          else verify_loop cfg rest (plan ++ [(rel_path, "file")]) σ1
      else verify_loop cfg rest plan σ
    else verify_loop cfg rest (plan ++ [(rel_path, entry_type)]) σ

/-- `SyncEngine.verify` (sync.py 64-103): scan, diff against the path
index, persist the plan with `json.dump(execution_plan, f, indent=2)` at
`plan_path`, return the path. -/
def verify (cfg : SyncConfig) (plan_path : String) (σ : SyncState) :
    Except PyErr (String × SyncState) :=
  match scan_source_directory cfg with
  | .error e => .error e
  | .ok source_map =>
    match verify_loop cfg source_map [] σ with
    | .error e => .error e
    | .ok (execution_plan, σ1) =>
      .ok (plan_path,
        { σ1 with planFiles := putA σ1.planFiles plan_path (encode_plan execution_plan) })

/-- Decimal rendering of the state's uuid counter (stands in for
`uuid.uuid4().hex`; the counter guarantees the freshness `uuid4` provides
probabilistically). -/
def natChars : Nat → Nat → List Char
  | 0, _ => []
  | fuel + 1, n =>
    if n < 10 then [hexDigitChar n]
    else natChars fuel (n / 10) ++ [hexDigitChar (n % 10)]

def natToString (n : Nat) : String := String.mk (natChars (n + 1) n)

/-- The fresh retry-plan location
`DATA_DIR / ".execution_retry" / f"{uuid4().hex}.json"` (sync.py 146). -/
def retry_plan_path (uuid : Nat) : String :=
  DATA_DIR ++ "/.execution_retry/" ++ natToString uuid ++ ".json"

/-- Phase 1 of `execute` (sync.py 130-135): every `dir` entry, in plan
order, goes through `_ensure_directory`; failures are recorded, never
aborting the run.  The `ensureDirCall` marker records the processing
point in the trace. -/
def run_dir_phase (cfg : SyncConfig) :
    List (String × String) → SyncState → List (String × String) × SyncState
  | [], σ => ([], σ)
  | (rel_path, entry_type) :: rest, σ =>
    if entry_type = "dir" then
      match ensure_directory cfg rel_path (addEvent σ (.ensureDirCall rel_path)) with
      | (success, σ1) =>
        match run_dir_phase cfg rest σ1 with
        | (failed, σ2) =>
          (if success then failed else (rel_path, entry_type) :: failed, σ2)
    else run_dir_phase cfg rest σ

/-- Phase 2 of `execute` (sync.py 137-142): every `file` entry, in plan
order, goes through `_sync_file`; failures are recorded, never aborting
the run. -/
def run_file_phase (cfg : SyncConfig) :
    List (String × String) → SyncState → List (String × String) × SyncState
  | [], σ => ([], σ)
  | (rel_path, entry_type) :: rest, σ =>
    if entry_type = "file" then
      match sync_file cfg rel_path (addEvent σ (.syncFileCall rel_path)) with
      | (success, σ1) =>
        match run_file_phase cfg rest σ1 with
        | (failed, σ2) =>
          (if success then failed else (rel_path, entry_type) :: failed, σ2)
    else run_file_phase cfg rest σ

/-- Core of `execute` (sync.py 128-151) on a loaded plan: the directory
phase runs to completion before the file phase starts; the failed entries
(each with its original kind, in processing order) are persisted as a
retry plan at a fresh location iff there are any, returning
`(False, location)`, else `(True, None)` with nothing persisted. -/
def execute_plan (cfg : SyncConfig) (execution_plan : List (String × String)) (σ : SyncState) :
    (Bool × Option String) × SyncState :=
  match run_dir_phase cfg execution_plan σ with
  | (failed1, σ1) =>
    match run_file_phase cfg execution_plan σ1 with
    | (failed2, σ2) =>
      let failed_entries := failed1 ++ failed2
      if failed_entries.isEmpty then ((true, none), σ2)
      else
        let retry_path := retry_plan_path σ2.uuid
        ((false, some retry_path),
          { σ2 with
              uuid := σ2.uuid + 1
              planFiles := putA σ2.planFiles retry_path (encode_plan failed_entries) })

/-- `SyncEngine.execute` with an explicit plan path (sync.py 124-151):
load the persisted document with `json.load`, then run the two phases. -/
def execute (cfg : SyncConfig) (plan_path : String) (σ : SyncState) :
    Except PyErr ((Bool × Option String) × SyncState) :=
  match lookupA σ.planFiles plan_path with
  | none => .error (.fileNotFound plan_path)
  | some text =>
    match parse_plan text with
    | none => .error (.valueError "invalid plan document")
    | some execution_plan => .ok (execute_plan cfg execution_plan σ)

end SyncEngine

/-- The executor's per-entry processing markers. -/
def isEntryCall : Event → Bool
  | .ensureDirCall _ => true
  | .syncFileCall _ => true
  | _ => false

/-- What a per-entry operation may do to the bookkeeping parts of the
state: the persisted plans and the uuid source are untouched, and the
trace grows only by device events (no processing markers). -/
def OpFrame (σ σ' : SyncState) : Prop :=
  σ'.planFiles = σ.planFiles ∧ σ'.uuid = σ.uuid ∧
  ∃ l, σ'.events = σ.events ++ l ∧ l.filter isEntryCall = []

/-- The failure set `execute` accumulates: phase-1 failures then phase-2
failures, read off the phase runs. -/
def exec_failed (cfg : SyncConfig) (plan : List (String × String)) (σ : SyncState) :
    List (String × String) :=
  (SyncEngine.run_dir_phase cfg plan σ).1 ++
    (SyncEngine.run_file_phase cfg plan (SyncEngine.run_dir_phase cfg plan σ).2).1

/-! ### Wrapped device operations (`@with_retry(max_retries=3)` in mtp_client.py) -/

/-- Coerce a one-attempt result into the retry wrapper's outcome type. -/
def Outcome.ofExcept {ε α : Type} : Except ε α → Outcome ε α
  | .ok a => .ok a
  | .error e => .err e

/-- `MTPClient.download` as decorated in mtp_client.py line 407:
`@with_retry(max_retries=3)` with the default retryable set
`exceptions=(Exception,)`.  With the deterministic device model a failing
attempt leaves the relevant state unchanged, so every attempt has the same
outcome. -/
def MTPClient.download_wrapped (cfg : SyncConfig) (fid : Nat) (σ : SyncState)
    (jitter : Nat → ℚ) : RetryResult PyErr String :=
  with_retry MAX_RETRIES RETRY_BACKOFF_FACTOR defaultRetryable jitter
    (fun _ => Outcome.ofExcept (MTPClient.download cfg fid σ).1)

/-- `MTPClient.upload` as decorated in mtp_client.py line 444. -/
def MTPClient.upload_wrapped (cfg : SyncConfig) (p : String) (pid : Nat) (name : String)
    (σ : SyncState) (jitter : Nat → ℚ) : RetryResult PyErr Nat :=
  with_retry MAX_RETRIES RETRY_BACKOFF_FACTOR defaultRetryable jitter
    (fun _ => Outcome.ofExcept (MTPClient.upload cfg p pid name σ).1)

/-- `MTPClient.mkdir` as decorated in mtp_client.py line 490. -/
def MTPClient.mkdir_wrapped (cfg : SyncConfig) (pid : Nat) (name : String) (sid : Nat)
    (σ : SyncState) (jitter : Nat → ℚ) : RetryResult PyErr Nat :=
  with_retry MAX_RETRIES RETRY_BACKOFF_FACTOR defaultRetryable jitter
    (fun _ => Outcome.ofExcept (MTPClient.mkdir cfg pid name sid σ).1)

deriving instance DecidableEq for Except

/-! ### Concrete machines used to evaluate the model -/

/-- A local tree holding one file `file1.txt` with bytes `[1, 2, 3]`. -/
def exTree : LocalTree := ⟨true, [("file1.txt", .file [1, 2, 3])]⟩

/-- A fully cooperative engine configuration over `exTree` (no injected
failures; size-only comparison). -/
def exCfg : SyncConfig :=
  ⟨"/src", "/dst", false, 0, exTree, (fun c => c.foldl (fun a b => 10 * a + b) 0),
    (fun _ => false), (fun _ => false), (fun _ => false), (fun _ => false)⟩

/-- `exCfg` with checksum validation enabled. -/
def exCfgCk : SyncConfig := { exCfg with use_checksum := true }

/-- Destination with an indexed root folder `/dst` (id 1) and nothing else. -/
def exState : SyncState :=
  ⟨[("/dst", .folder 1)], [(1, ⟨.folder 1, "/dst", none⟩)], [(1, [])],
    [], [], [], 1000, 7, []⟩

/-- The state after `verify` has produced and persisted the plan for
`exTree` against `exState`. -/
def exStateV : SyncState :=
  match SyncEngine.verify exCfg "plan.json" exState with
  | .ok r => r.2
  | .error _ => exState

/-- A local tree with the directory chain `a/`, `a/b/`. -/
def exTree2 : LocalTree := ⟨true, [("a/", .dir), ("a/b/", .dir)]⟩

/-- Cooperative configuration over `exTree2`. -/
def exCfg2 : SyncConfig := { exCfg with local_tree := exTree2 }

/-- The state after one `ensure_directory "a/b/"` call from `exState`. -/
def exStateD1 : SyncState := (SyncEngine.ensure_directory exCfg2 "a/b/" exState).2

/-- A local tree holding `a.txt` with bytes `[1, 2, 3]`. -/
def exTree5 : LocalTree := ⟨true, [("a.txt", .file [1, 2, 3])]⟩

/-- Checksum-mode configuration where reading the scratch copy
`/tmp/mtpsync/a.txt` raises (an injected I/O error during digest
computation). -/
def exCfg5 : SyncConfig :=
  ⟨"/src", "/dst", true, 0, exTree5, (fun c => c.foldl (fun a b => 10 * a + b) 0),
    (fun p => p = "/tmp/mtpsync/a.txt"), (fun _ => false), (fun _ => false), (fun _ => false)⟩

/-- Destination already holding `/dst/a.txt` (id 5, 3 bytes, device content
`[9, 9, 9]`). -/
def exState5 : SyncState :=
  ⟨[("/dst", .folder 1), ("/dst/a.txt", .file 5 3)],
    [(1, ⟨.folder 1, "/dst", none⟩), (5, ⟨.file 5 3, "/dst/a.txt", some (.folder 1)⟩)],
    [(1, [("a.txt", .file 5 3)])], [(5, [9, 9, 9])], [], [], 1000, 7, []⟩

/-- An empty machine (no destination index at all). -/
def exState0 : SyncState := ⟨[], [], [], [], [], [], 1000, 7, []⟩

/-- `exCfg5` with no injected read failures: the fully cooperative
checksum-mode comparison over `exTree5` / `exState5`. -/
def exCfg5b : SyncConfig := { exCfg5 with readFails := fun _ => false }

/-- The id-map entry of `/dst/a.txt` in `exState5`. -/
def exEntry5 : IDEntry := ⟨.file 5 3, "/dst/a.txt", some (.folder 1)⟩

/-- `exState5` right after the comparison's download wrote the scratch
copy. -/
def exScratch5 : SyncState :=
  writeTemp (addEvent exState5 (.downloadCall 5)) "/tmp/mtpsync/a.txt" [9, 9, 9]

/-- The state `compare_file` returns on `exCfg5` / `exState5` (the
digest-error run). -/
def exState5C : SyncState :=
  match SyncEngine.compare_file exCfg5 "a.txt" "/dst/a.txt" exState5 with
  | .ok r => r.2
  | .error _ => exState5

/-- The state after `execute` consumed the plan `verify` persisted at
`plan.json` (see `exStateV`). -/
def exStateE : SyncState :=
  match SyncEngine.execute exCfg "plan.json" exStateV with
  | .ok r => r.2
  | .error _ => exStateV

/-- The state after a second `verify`, run against the post-`execute`
state `exStateE`. -/
def exStateE2 : SyncState :=
  match SyncEngine.verify exCfg "plan2.json" exStateE with
  | .ok r => r.2
  | .error _ => exStateE

/-! ### JSON round-trip lemmas -/

theorem hexVal_hexDigitChar (d : Nat) (h : d < 16) : hexVal (hexDigitChar d) = some d := by
  interval_cases d <;> decide

theorem hex4Val_hex4 (n : Nat) (h : n < 65536) :
    hex4Val (hexDigitChar (n / 4096 % 16)) (hexDigitChar (n / 256 % 16))
      (hexDigitChar (n / 16 % 16)) (hexDigitChar (n % 16)) = some n := by
  have h1 := hexVal_hexDigitChar (n / 4096 % 16) (Nat.mod_lt _ (by norm_num))
  have h2 := hexVal_hexDigitChar (n / 256 % 16) (Nat.mod_lt _ (by norm_num))
  have h3 := hexVal_hexDigitChar (n / 16 % 16) (Nat.mod_lt _ (by norm_num))
  have h4 := hexVal_hexDigitChar (n % 16) (Nat.mod_lt _ (by norm_num))
  simp [hex4Val, h1, h2, h3, h4]
  omega

theorem psbA (c : Char) (fuel : Nat) (tail l rest : List Char)
    (ih : parseStringBody fuel tail = some (l, rest))
    (h : c = '"' ∨ c = '\\' ∨ c = '\x08' ∨ c = '\x0c' ∨ c = '\n' ∨ c = '\r' ∨ c = '\t') :
    parseStringBody (fuel + 1) (escapeChar c ++ tail) = some (c :: l, rest) := by
  rcases h with h | h | h | h | h | h | h <;>
    (subst h; simp [escapeChar, parseStringBody, shortEscape, ih])

theorem psb_u_step (fuel : Nat) (rest2 : List Char) :
    parseStringBody (fuel + 1) ('\\' :: 'u' :: rest2) = parseAfterU (parseStringBody fuel) rest2 := by
  simp [parseStringBody]

theorem parseAfterU_bmp (rec : List Char → Option (List Char × List Char)) (n : Nat)
    (tl l rest : List Char) (hn : n < 65536)
    (hs1 : ¬ (0xD800 ≤ n ∧ n < 0xDC00)) (hs2 : ¬ (0xDC00 ≤ n ∧ n < 0xE000))
    (ih : rec tl = some (l, rest)) :
    parseAfterU rec (hex4 n ++ tl) = some (Char.ofNat n :: l, rest) := by
  simp [hex4, parseAfterU, hex4Val_hex4 n hn, hs1, hs2, ih]

theorem parseAfterU_surrogate (rec : List Char → Option (List Char × List Char)) (hi lo : Nat)
    (tl l rest : List Char)
    (h1 : 0xD800 ≤ hi ∧ hi < 0xDC00) (h2 : 0xDC00 ≤ lo ∧ lo < 0xE000)
    (ih : rec tl = some (l, rest)) :
    parseAfterU rec (hex4 hi ++ '\\' :: 'u' :: (hex4 lo ++ tl)) =
      some (Char.ofNat (0x10000 + (hi - 0xD800) * 0x400 + (lo - 0xDC00)) :: l, rest) := by
  have hhi : hi < 65536 := by omega
  have hlo : lo < 65536 := by omega
  simp [hex4, parseAfterU, hex4Val_hex4 hi hhi, hex4Val_hex4 lo hlo, h1, h2, ih]

theorem psbB (c : Char) (fuel : Nat) (tail l rest : List Char)
    (ih : parseStringBody fuel tail = some (l, rest))
    (h1 : ¬ c = '"') (h2 : ¬ c = '\\') (h3 : ¬ c = '\x08') (h4 : ¬ c = '\x0c')
    (h5 : ¬ c = '\n') (h6 : ¬ c = '\r') (h7 : ¬ c = '\t')
    (h8 : c.toNat < 0x20 ∨ 0x7e < c.toNat) (h9 : c.toNat < 0x10000) :
    parseStringBody (fuel + 1) (escapeChar c ++ tail) = some (c :: l, rest) := by
  have hval : c.toNat < 0xD800 ∨ (0xDFFF < c.toNat ∧ c.toNat < 0x110000) := c.valid
  have he : escapeChar c = '\\' :: 'u' :: hex4 c.toNat := by
    simp [escapeChar, h1, h2, h3, h4, h5, h6, h7, h8, uEscape, h9]
  rw [he]
  have hassoc : ('\\' :: 'u' :: hex4 c.toNat) ++ tail = '\\' :: 'u' :: (hex4 c.toNat ++ tail) := by
    simp
  rw [hassoc, psb_u_step]
  rw [parseAfterU_bmp (parseStringBody fuel) c.toNat tail l rest h9 (by omega) (by omega) ih]
  rw [Char.ofNat_toNat]

theorem psbC (c : Char) (fuel : Nat) (tail l rest : List Char)
    (ih : parseStringBody fuel tail = some (l, rest))
    (h1 : ¬ c = '"') (h2 : ¬ c = '\\') (h3 : ¬ c = '\x08') (h4 : ¬ c = '\x0c')
    (h5 : ¬ c = '\n') (h6 : ¬ c = '\r') (h7 : ¬ c = '\t')
    (h8 : c.toNat < 0x20 ∨ 0x7e < c.toNat) (h9 : ¬ c.toNat < 0x10000) :
    parseStringBody (fuel + 1) (escapeChar c ++ tail) = some (c :: l, rest) := by
  have hval : c.toNat < 0xD800 ∨ (0xDFFF < c.toNat ∧ c.toNat < 0x110000) := c.valid
  have hmod : (c.toNat - 0x10000) % 0x400 < 0x400 := Nat.mod_lt _ (by norm_num)
  have he : escapeChar c =
      ('\\' :: 'u' :: hex4 (0xD800 + (c.toNat - 0x10000) / 0x400)) ++
        ('\\' :: 'u' :: hex4 (0xDC00 + (c.toNat - 0x10000) % 0x400)) := by
    simp [escapeChar, h1, h2, h3, h4, h5, h6, h7, h8, uEscape, h9]
  rw [he]
  have hassoc : (('\\' :: 'u' :: hex4 (0xD800 + (c.toNat - 0x10000) / 0x400)) ++
        ('\\' :: 'u' :: hex4 (0xDC00 + (c.toNat - 0x10000) % 0x400))) ++ tail =
      '\\' :: 'u' :: (hex4 (0xD800 + (c.toNat - 0x10000) / 0x400) ++
        '\\' :: 'u' :: (hex4 (0xDC00 + (c.toNat - 0x10000) % 0x400) ++ tail)) := by
    simp
  rw [hassoc, psb_u_step]
  rw [parseAfterU_surrogate (parseStringBody fuel) _ _ tail l rest
    (by constructor <;> omega) (by constructor <;> omega) ih]
  have harg : 0x10000 + (0xD800 + (c.toNat - 0x10000) / 0x400 - 0xD800) * 0x400 +
      (0xDC00 + (c.toNat - 0x10000) % 0x400 - 0xDC00) = c.toNat := by omega
  rw [harg, Char.ofNat_toNat]

/-- Round trip of one escaped character at the head of a string body. -/
theorem parseStringBody_escapeChar (c : Char) (fuel : Nat) (tail l rest : List Char)
    (ih : parseStringBody fuel tail = some (l, rest)) :
    parseStringBody (fuel + 1) (escapeChar c ++ tail) = some (c :: l, rest) := by
  by_cases h1 : c = '"'
  · exact psbA c fuel tail l rest ih (Or.inl h1)
  by_cases h2 : c = '\\'
  · exact psbA c fuel tail l rest ih (Or.inr (Or.inl h2))
  by_cases h3 : c = '\x08'
  · exact psbA c fuel tail l rest ih (Or.inr (Or.inr (Or.inl h3)))
  by_cases h4 : c = '\x0c'
  · exact psbA c fuel tail l rest ih (Or.inr (Or.inr (Or.inr (Or.inl h4))))
  by_cases h5 : c = '\n'
  · exact psbA c fuel tail l rest ih (Or.inr (Or.inr (Or.inr (Or.inr (Or.inl h5)))))
  by_cases h6 : c = '\r'
  · exact psbA c fuel tail l rest ih (Or.inr (Or.inr (Or.inr (Or.inr (Or.inr (Or.inl h6))))))
  by_cases h7 : c = '\t'
  · exact psbA c fuel tail l rest ih (Or.inr (Or.inr (Or.inr (Or.inr (Or.inr (Or.inr h7))))))
  by_cases h8 : c.toNat < 0x20 ∨ 0x7e < c.toNat
  · by_cases h9 : c.toNat < 0x10000
    · exact psbB c fuel tail l rest ih h1 h2 h3 h4 h5 h6 h7 h8 h9
    · exact psbC c fuel tail l rest ih h1 h2 h3 h4 h5 h6 h7 h8 h9
  · have h20 : ¬ (c.toNat < 0x20) := by omega
    have h7e : ¬ (0x7e < c.toNat) := by omega
    simp [escapeChar, h1, h2, h3, h4, h5, h6, h7, h8, h20, h7e, parseStringBody, ih]

/-- Round trip of a whole escaped string body. -/
theorem parseStringBody_escapeChars : ∀ (l : List Char) (fuel : Nat) (rest : List Char),
    l.length < fuel →
    parseStringBody fuel (escapeChars l ++ '"' :: rest) = some (l, rest)
  | [], fuel, rest, h => by
    match fuel, h with
    | f + 1, _ => simp [escapeChars, parseStringBody]
  | c :: l, fuel, rest, h => by
    match fuel, h with
    | f + 1, h =>
      have ih := parseStringBody_escapeChars l f rest (by simpa using Nat.lt_of_succ_lt_succ h)
      have he : escapeChars (c :: l) = escapeChar c ++ escapeChars l := by
        simp [escapeChars]
      rw [he, List.append_assoc]
      exact parseStringBody_escapeChar c f _ l rest ih

/-- Round trip of a JSON string literal. -/
theorem parseJString_jsonStr (s : String) (fuel : Nat) (rest : List Char)
    (h : s.data.length < fuel) :
    parseJString fuel ((jsonStr s).data ++ rest) = some (s, rest) := by
  have hd : (jsonStr s).data = '"' :: (escapeChars s.data ++ '"' :: []) := by
    simp [jsonStr]
  rw [hd]
  show parseJString fuel ('"' :: ((escapeChars s.data ++ ['"']) ++ rest)) = some (s, rest)
  rw [List.append_assoc]
  simp only [parseJString, if_pos rfl, List.cons_append, List.nil_append]
  rw [parseStringBody_escapeChars s.data fuel rest h]
  rfl

theorem data_append (a b : String) : (a ++ b).data = a.data ++ b.data := rfl

theorem skipWs_not_ws (c : Char) (l : List Char) (h : isJsonWs c = false) :
    skipWs (c :: l) = c :: l := by
  simp [skipWs, h]

theorem jsonStr_data (s : String) :
    (jsonStr s).data = '"' :: (escapeChars s.data ++ ['"']) := by
  simp [jsonStr, data_append]

theorem skipWs_jsonStr (s : String) (x : List Char) :
    skipWs ((jsonStr s).data ++ x) = (jsonStr s).data ++ x := by
  rw [jsonStr_data, List.cons_append, skipWs_not_ws _ _ (by decide)]

theorem planItems_single_data (k v : String) :
    (planItems [(k, v)]).data = (jsonStr k).data ++ (':' :: ' ' :: (jsonStr v).data) := by
  simp [planItems, jsonStr, data_append]

theorem planItems_cons_data (k v : String) (hd : String × String) (tl : List (String × String)) :
    (planItems ((k, v) :: hd :: tl)).data =
      (jsonStr k).data ++ (':' :: ' ' :: ((jsonStr v).data ++
        (',' :: '\n' :: ' ' :: ' ' :: (planItems (hd :: tl)).data))) := by
  simp [planItems, jsonStr, data_append]

theorem skipWs_planItems (k v : String) (r : List (String × String)) (x : List Char) :
    skipWs ((planItems ((k, v) :: r)).data ++ x) = (planItems ((k, v) :: r)).data ++ x := by
  cases r with
  | nil =>
    rw [planItems_single_data, List.append_assoc, skipWs_jsonStr,
      ← List.append_assoc, ← planItems_single_data]
  | cons hd tl =>
    rw [planItems_cons_data, List.append_assoc, skipWs_jsonStr,
      ← List.append_assoc, ← planItems_cons_data]

theorem parsePairs_planItems : ∀ (m : List (String × String)) (sfuel pfuel : Nat)
    (tail rest : List Char),
    m ≠ [] → m.length ≤ pfuel →
    (∀ kv ∈ m, kv.1.data.length < sfuel ∧ kv.2.data.length < sfuel) →
    skipWs tail = cbrace :: rest →
    parsePairs sfuel pfuel ((planItems m).data ++ tail) = some (m, rest)
  | [], _, _, _, _, hne, _, _, _ => absurd rfl hne
  | [(k, v)], sfuel, pfuel, tail, rest, _, hlen, hb, htail => by
    match pfuel, hlen with
    | p + 1, _ =>
      have hbk := (hb (k, v) (by simp)).1
      have hbv := (hb (k, v) (by simp)).2
      have e1 : parseJString sfuel ((jsonStr k).data ++ (':' :: ' ' :: ((jsonStr v).data ++ tail)))
          = some (k, ':' :: ' ' :: ((jsonStr v).data ++ tail)) :=
        parseJString_jsonStr k sfuel _ hbk
      have e2 : skipWs (':' :: ' ' :: ((jsonStr v).data ++ tail))
          = ':' :: ' ' :: ((jsonStr v).data ++ tail) := skipWs_not_ws _ _ (by decide)
      have e3 : skipWs (' ' :: ((jsonStr v).data ++ tail)) = (jsonStr v).data ++ tail := by
        show skipWs (' ' :: ((jsonStr v).data ++ tail)) = _
        rw [skipWs]
        simp only [if_pos (show isJsonWs ' ' = true by decide)]
        exact skipWs_jsonStr v tail
      have e4 : parseJString sfuel ((jsonStr v).data ++ tail) = some (v, tail) :=
        parseJString_jsonStr v sfuel tail hbv
      rw [planItems_single_data, List.append_assoc,
        show (':' :: ' ' :: (jsonStr v).data) ++ tail = ':' :: ' ' :: ((jsonStr v).data ++ tail)
          by simp]
      rw [parsePairs]
      rw [e1]
      simp only [e2, e3, e4, htail]
      simp [cbrace]
  | (k, v) :: hd :: tl, sfuel, pfuel, tail, rest, _, hlen, hb, htail => by
    match pfuel, hlen with
    | p + 1, hlen =>
      have hbk := (hb (k, v) (by simp)).1
      have hbv := (hb (k, v) (by simp)).2
      have ih := parsePairs_planItems (hd :: tl) sfuel p tail rest (by simp)
        (by simpa using Nat.lt_of_succ_lt_succ (Nat.lt_succ_of_le hlen))
        (fun kv hm => hb kv (by simp [hm]))
        htail
      have e1 : parseJString sfuel ((jsonStr k).data ++ (':' :: ' ' :: ((jsonStr v).data ++
          (',' :: '\n' :: ' ' :: ' ' :: ((planItems (hd :: tl)).data ++ tail)))))
          = some (k, ':' :: ' ' :: ((jsonStr v).data ++
            (',' :: '\n' :: ' ' :: ' ' :: ((planItems (hd :: tl)).data ++ tail)))) :=
        parseJString_jsonStr k sfuel _ hbk
      have e2 : skipWs (':' :: ' ' :: ((jsonStr v).data ++
          (',' :: '\n' :: ' ' :: ' ' :: ((planItems (hd :: tl)).data ++ tail))))
          = ':' :: ' ' :: ((jsonStr v).data ++
            (',' :: '\n' :: ' ' :: ' ' :: ((planItems (hd :: tl)).data ++ tail))) :=
        skipWs_not_ws _ _ (by decide)
      have e3 : skipWs (' ' :: ((jsonStr v).data ++
          (',' :: '\n' :: ' ' :: ' ' :: ((planItems (hd :: tl)).data ++ tail))))
          = (jsonStr v).data ++
            (',' :: '\n' :: ' ' :: ' ' :: ((planItems (hd :: tl)).data ++ tail)) := by
        rw [skipWs]
        simp only [if_pos (show isJsonWs ' ' = true by decide)]
        exact skipWs_jsonStr v _
      have e4 : parseJString sfuel ((jsonStr v).data ++
          (',' :: '\n' :: ' ' :: ' ' :: ((planItems (hd :: tl)).data ++ tail)))
          = some (v, ',' :: '\n' :: ' ' :: ' ' :: ((planItems (hd :: tl)).data ++ tail)) :=
        parseJString_jsonStr v sfuel _ hbv
      have e5 : skipWs (',' :: '\n' :: ' ' :: ' ' :: ((planItems (hd :: tl)).data ++ tail))
          = ',' :: '\n' :: ' ' :: ' ' :: ((planItems (hd :: tl)).data ++ tail) :=
        skipWs_not_ws _ _ (by decide)
      have e6 : skipWs ('\n' :: ' ' :: ' ' :: ((planItems (hd :: tl)).data ++ tail))
          = (planItems (hd :: tl)).data ++ tail := by
        rw [skipWs]
        simp only [if_pos (show isJsonWs '\n' = true by decide)]
        rw [skipWs]
        simp only [if_pos (show isJsonWs ' ' = true by decide)]
        rw [skipWs]
        simp only [if_pos (show isJsonWs ' ' = true by decide)]
        exact skipWs_planItems hd.1 hd.2 tl tail
      rw [planItems_cons_data, List.append_assoc,
        show (':' :: ' ' :: ((jsonStr v).data ++
            (',' :: '\n' :: ' ' :: ' ' :: (planItems (hd :: tl)).data))) ++ tail
          = ':' :: ' ' :: ((jsonStr v).data ++
            (',' :: '\n' :: ' ' :: ' ' :: ((planItems (hd :: tl)).data ++ tail))) by simp]
      rw [parsePairs]
      rw [e1]
      simp only [e2, e3, e4, e5, e6, ih]

theorem escapeChar_length_pos (c : Char) : 1 ≤ (escapeChar c).length := by
  by_cases h1 : c = '"'
  · simp [escapeChar, h1]
  by_cases h2 : c = '\\'
  · simp [escapeChar, h1, h2]
  by_cases h3 : c = '\x08'
  · simp [escapeChar, h1, h2, h3]
  by_cases h4 : c = '\x0c'
  · simp [escapeChar, h1, h2, h3, h4]
  by_cases h5 : c = '\n'
  · simp [escapeChar, h1, h2, h3, h4, h5]
  by_cases h6 : c = '\r'
  · simp [escapeChar, h1, h2, h3, h4, h5, h6]
  by_cases h7 : c = '\t'
  · simp [escapeChar, h1, h2, h3, h4, h5, h6, h7]
  by_cases h8 : c.toNat < 0x20 ∨ 0x7e < c.toNat
  · by_cases h9 : c.toNat < 0x10000 <;>
      simp [escapeChar, h1, h2, h3, h4, h5, h6, h7, h8, uEscape, h9, hex4]
  · simp [escapeChar, h1, h2, h3, h4, h5, h6, h7, h8]

theorem escapeChars_length_ge : ∀ l : List Char, l.length ≤ (escapeChars l).length
  | [] => by simp [escapeChars]
  | c :: l => by
    have ih := escapeChars_length_ge l
    have h1 := escapeChar_length_pos c
    have he : escapeChars (c :: l) = escapeChar c ++ escapeChars l := by simp [escapeChars]
    rw [he]
    simp only [List.length_cons, List.length_append]
    omega

theorem jsonStr_length (s : String) : (jsonStr s).data.length = (escapeChars s.data).length + 2 := by
  rw [jsonStr_data]
  simp

theorem mem_planItems_bound : ∀ (m : List (String × String)) (kv : String × String), kv ∈ m →
    kv.1.data.length < (planItems m).data.length ∧ kv.2.data.length < (planItems m).data.length
  | [], _, h => absurd h (by simp)
  | [(k, v)], kv, h => by
    have hk := escapeChars_length_ge k.data
    have hv := escapeChars_length_ge v.data
    have hkv : kv = (k, v) := by simpa using h
    subst hkv
    rw [planItems_single_data]
    simp only [List.length_append, List.length_cons, jsonStr_length]
    constructor <;> omega
  | (k, v) :: hd :: tl, kv, h => by
    have hk := escapeChars_length_ge k.data
    have hv := escapeChars_length_ge v.data
    rw [planItems_cons_data]
    simp only [List.length_append, List.length_cons, jsonStr_length]
    rcases (by simpa using h : kv = (k, v) ∨ kv ∈ hd :: tl) with he | hm
    · subst he
      dsimp only
      constructor <;> omega
    · have ih := mem_planItems_bound (hd :: tl) kv hm
      constructor <;> omega

theorem planItems_length_ge_card : ∀ m : List (String × String),
    m.length ≤ (planItems m).data.length
  | [] => by simp [planItems]
  | [(k, v)] => by
    rw [planItems_single_data]
    simp only [List.length_append, List.length_cons, List.length_nil, jsonStr_length]
    omega
  | (k, v) :: hd :: tl => by
    have ih := planItems_length_ge_card (hd :: tl)
    simp only [List.length_cons] at ih ⊢
    rw [planItems_cons_data]
    simp only [List.length_append, List.length_cons, jsonStr_length]
    omega

theorem encode_plan_cons_data (x : String × String) (r : List (String × String)) :
    (encode_plan (x :: r)).data =
      '\x7b' :: '\n' :: ' ' :: ' ' :: ((planItems (x :: r)).data ++ ['\n', '\x7d']) := by
  simp [encode_plan, data_append]

/-- Round trip of the plan persistence: reloading a dumped plan document
recovers exactly the key/value pairs that were dumped. -/
theorem parse_plan_encode_plan : ∀ m : List (String × String),
    parse_plan (encode_plan m) = some m
  | [] => by decide
  | x :: r => by
    have hcb : skipWs ['\n', '\x7d'] = cbrace :: [] := by decide
    have hb := fun kv hm => mem_planItems_bound (x :: r) kv hm
    have hcard := planItems_length_ge_card (x :: r)
    have hlen : (encode_plan (x :: r)).data.length =
        (planItems (x :: r)).data.length + 6 := by
      rw [encode_plan_cons_data]; simp
    obtain ⟨t, ht⟩ : ∃ t, (planItems (x :: r)).data = '"' :: t := by
      match x with
      | (k, v) =>
        cases r with
        | nil =>
          exact ⟨escapeChars k.data ++ '"' :: ':' :: ' ' :: (jsonStr v).data,
            by rw [planItems_single_data, jsonStr_data]; simp⟩
        | cons hd tl =>
          exact ⟨escapeChars k.data ++ '"' :: ':' :: ' ' ::
              ((jsonStr v).data ++ ',' :: '
' :: ' ' :: ' ' :: (planItems (hd :: tl)).data),
            by rw [planItems_cons_data, jsonStr_data]; simp⟩
    have hpp := parsePairs_planItems (x :: r) ((encode_plan (x :: r)).data.length + 1)
      ((encode_plan (x :: r)).data.length + 1) ['\n', '\x7d'] [] (by simp)
      (by omega)
      (fun kv hm => by
        have := hb kv hm
        omega)
      hcb
    rw [parse_plan]
    rw [encode_plan_cons_data]
    rw [show skipWs ('\x7b' :: '\n' :: ' ' :: ' ' :: ((planItems (x :: r)).data ++ ['\n', '\x7d']))
        = '\x7b' :: '\n' :: ' ' :: ' ' :: ((planItems (x :: r)).data ++ ['\n', '\x7d'])
      from skipWs_not_ws _ _ (by decide)]
    simp only [if_pos (show '\x7b' = obrace by decide)]
    rw [show skipWs ('\n' :: ' ' :: ' ' :: ((planItems (x :: r)).data ++ ['\n', '\x7d']))
        = (planItems (x :: r)).data ++ ['\n', '\x7d'] by
      rw [skipWs]
      simp only [if_pos (show isJsonWs '\n' = true by decide)]
      rw [skipWs]
      simp only [if_pos (show isJsonWs ' ' = true by decide)]
      rw [skipWs]
      simp only [if_pos (show isJsonWs ' ' = true by decide)]
      exact skipWs_planItems x.1 x.2 r _]
    rw [ht]
    simp only [List.cons_append]
    rw [if_neg (show ¬ ('"' = cbrace) by decide)]
    rw [← List.cons_append, ← ht, ← encode_plan_cons_data]
    rw [hpp]
    simp [skipWs]

/-! ### Retry-wrapper lemmas -/

theorem retryGo_calls_le {ε α : Type} (maxR : Nat) (b : ℚ) (r : ε → Bool) (j : Nat → ℚ)
    (op : Nat → Outcome ε α) : ∀ (fuel calls rc : Nat) (sleeps : List ℚ) (last : Option ε),
    (retryGo maxR b r j op fuel calls rc sleeps last).calls ≤ calls + fuel
  | 0, calls, rc, sleeps, last => by
    cases last <;> simp [retryGo]
  | fuel + 1, calls, rc, sleeps, last => by
    rw [retryGo]
    match hop : op calls with
    | .ok a => simp
    | .err e =>
      by_cases hr : r e = true
      · simp only [hr, if_true]
        by_cases hb : rc + 1 > maxR
        · simp [hb]
        · simp only [hb, if_false]
          have ih := retryGo_calls_le maxR b r j op fuel (calls + 1) (rc + 1)
            (sleeps ++ [b ^ (rc + 1) + j (rc + 1)]) (some e)
          omega
      · simp only [Bool.not_eq_true] at hr
        simp [hr]

theorem retryGo_sleeps_spec {ε α : Type} (maxR : Nat) (b : ℚ) (r : ε → Bool) (j : Nat → ℚ)
    (op : Nat → Outcome ε α) : ∀ (fuel calls rc : Nat) (last : Option ε),
    ∃ n, (retryGo maxR b r j op fuel calls rc (sleepSpec b j rc) last).sleeps = sleepSpec b j n
  | 0, calls, rc, last => by
    cases last <;> exact ⟨rc, by simp [retryGo]⟩
  | fuel + 1, calls, rc, last => by
    rw [retryGo]
    match hop : op calls with
    | .ok a => exact ⟨rc, by simp⟩
    | .err e =>
      by_cases hr : r e = true
      · simp only [hr, if_true]
        by_cases hb : rc + 1 > maxR
        · exact ⟨rc, by simp [hb]⟩
        · simp only [hb, if_false]
          have hstep : sleepSpec b j rc ++ [b ^ (rc + 1) + j (rc + 1)] =
              sleepSpec b j (rc + 1) := by
            simp [sleepSpec, List.range_succ]
          rw [hstep]
          exact retryGo_sleeps_spec maxR b r j op fuel (calls + 1) (rc + 1) (some e)
      · simp only [Bool.not_eq_true] at hr
        exact ⟨rc, by simp [hr]⟩

theorem retryGo_all_fail {ε α : Type} (maxR : Nat) (b : ℚ) (r : ε → Bool) (j : Nat → ℚ)
    (op : Nat → Outcome ε α) : ∀ (fuel rc : Nat) (sleeps : List ℚ) (last : Option ε),
    rc + fuel = maxR + 1 → rc ≤ maxR →
    (∀ i, rc ≤ i → i ≤ maxR → ∃ e, op i = .err e ∧ r e = true) →
    ∀ e, op maxR = .err e →
      (retryGo maxR b r j op fuel rc rc sleeps last).result = .err e ∧
      (retryGo maxR b r j op fuel rc rc sleeps last).calls = maxR + 1
  | 0, rc, sleeps, last, hf, hrc, hops, e, hlast => by omega
  | fuel + 1, rc, sleeps, last, hf, hrc, hops, e, hlast => by
    obtain ⟨e0, hop0, hr0⟩ := hops rc (le_refl rc) hrc
    rw [retryGo]
    rw [hop0]
    simp only [hr0, if_true]
    by_cases hb : rc + 1 > maxR
    · have hrcm : rc = maxR := by omega
      subst hrcm
      rw [hlast] at hop0
      cases hop0
      simp [hb]
    · simp only [hb, if_false]
      exact retryGo_all_fail maxR b r j op fuel (rc + 1)
        (sleeps ++ [b ^ (rc + 1) + j (rc + 1)]) (some e0)
        (by omega) (by omega)
        (fun i hi1 hi2 => hops i (by omega) hi2) e hlast

theorem with_retry_all_fail {ε α : Type} (maxR : Nat) (b : ℚ) (r : ε → Bool) (j : Nat → ℚ)
    (op : Nat → Outcome ε α)
    (hops : ∀ i, i ≤ maxR → ∃ e, op i = .err e ∧ r e = true) :
    ∀ e, op maxR = .err e →
      (with_retry maxR b r j op).result = .err e ∧
      (with_retry maxR b r j op).calls = maxR + 1 := by
  intro e he
  exact retryGo_all_fail maxR b r j op (maxR + 1) 0 [] none (by omega) (by omega)
    (fun i _ hi => hops i hi) e he

theorem with_retry_nonretryable {ε α : Type} (maxR : Nat) (b : ℚ) (r : ε → Bool) (j : Nat → ℚ)
    (op : Nat → Outcome ε α) (e : ε) (h0 : op 0 = .err e) (hr : r e = false) :
    with_retry maxR b r j op = ⟨.err e, 1, []⟩ := by
  simp [with_retry, retryGo, h0, hr]

/-! ### Frame lemmas for the engine's operations -/

@[simp] theorem addEvent_path_map (σ : SyncState) (e : Event) :
    (addEvent σ e).path_map = σ.path_map := rfl

@[simp] theorem addEvent_id_map (σ : SyncState) (e : Event) :
    (addEvent σ e).id_map = σ.id_map := rfl

@[simp] theorem addEvent_children (σ : SyncState) (e : Event) :
    (addEvent σ e).children = σ.children := rfl

@[simp] theorem addEvent_remote (σ : SyncState) (e : Event) :
    (addEvent σ e).remote = σ.remote := rfl

@[simp] theorem addEvent_temp (σ : SyncState) (e : Event) :
    (addEvent σ e).temp = σ.temp := rfl

@[simp] theorem addEvent_planFiles (σ : SyncState) (e : Event) :
    (addEvent σ e).planFiles = σ.planFiles := rfl

@[simp] theorem addEvent_nextId (σ : SyncState) (e : Event) :
    (addEvent σ e).nextId = σ.nextId := rfl

@[simp] theorem addEvent_uuid (σ : SyncState) (e : Event) :
    (addEvent σ e).uuid = σ.uuid := rfl

@[simp] theorem addEvent_events (σ : SyncState) (e : Event) :
    (addEvent σ e).events = σ.events ++ [e] := rfl

@[simp] theorem writeTemp_path_map (σ : SyncState) (p : String) (c : List Nat) :
    (writeTemp σ p c).path_map = σ.path_map := rfl

@[simp] theorem writeTemp_id_map (σ : SyncState) (p : String) (c : List Nat) :
    (writeTemp σ p c).id_map = σ.id_map := rfl

@[simp] theorem writeTemp_children (σ : SyncState) (p : String) (c : List Nat) :
    (writeTemp σ p c).children = σ.children := rfl

@[simp] theorem writeTemp_planFiles (σ : SyncState) (p : String) (c : List Nat) :
    (writeTemp σ p c).planFiles = σ.planFiles := rfl

@[simp] theorem writeTemp_uuid (σ : SyncState) (p : String) (c : List Nat) :
    (writeTemp σ p c).uuid = σ.uuid := rfl

@[simp] theorem writeTemp_events (σ : SyncState) (p : String) (c : List Nat) :
    (writeTemp σ p c).events = σ.events := rfl

@[simp] theorem unlinkTemp_path_map (σ : SyncState) (p : String) :
    (unlinkTemp σ p).path_map = σ.path_map := rfl

@[simp] theorem unlinkTemp_id_map (σ : SyncState) (p : String) :
    (unlinkTemp σ p).id_map = σ.id_map := rfl

@[simp] theorem unlinkTemp_children (σ : SyncState) (p : String) :
    (unlinkTemp σ p).children = σ.children := rfl

@[simp] theorem unlinkTemp_planFiles (σ : SyncState) (p : String) :
    (unlinkTemp σ p).planFiles = σ.planFiles := rfl

@[simp] theorem unlinkTemp_uuid (σ : SyncState) (p : String) :
    (unlinkTemp σ p).uuid = σ.uuid := rfl

@[simp] theorem unlinkTemp_events (σ : SyncState) (p : String) :
    (unlinkTemp σ p).events = σ.events := rfl

theorem OpFrame.refl (σ : SyncState) : OpFrame σ σ :=
  ⟨rfl, rfl, [], by simp, rfl⟩

theorem OpFrame.trans {σ1 σ2 σ3 : SyncState} (h1 : OpFrame σ1 σ2) (h2 : OpFrame σ2 σ3) :
    OpFrame σ1 σ3 := by
  obtain ⟨hp1, hu1, l1, he1, hf1⟩ := h1
  obtain ⟨hp2, hu2, l2, he2, hf2⟩ := h2
  exact ⟨hp2.trans hp1, hu2.trans hu1, l1 ++ l2,
    by rw [he2, he1, List.append_assoc], by simp [List.filter_append, hf1, hf2]⟩

theorem opFrame_addEvent (σ : SyncState) (e : Event) (h : isEntryCall e = false) :
    OpFrame σ (addEvent σ e) :=
  ⟨rfl, rfl, [e], rfl, by simp [h]⟩

theorem opFrame_mkdir (cfg : SyncConfig) (pid : Nat) (name : String) (sid : Nat) (σ : SyncState) :
    OpFrame σ (MTPClient.mkdir cfg pid name sid σ).2 := by
  unfold MTPClient.mkdir
  by_cases h : cfg.mkdirFails name = true <;>
    simp [h] <;> exact opFrame_addEvent σ _ rfl

theorem opFrame_upload (cfg : SyncConfig) (p : String) (pid : Nat) (name : String)
    (σ : SyncState) : OpFrame σ (MTPClient.upload cfg p pid name σ).2 := by
  unfold MTPClient.upload
  refine ⟨?_, ?_, [.uploadCall pid name], ?_, rfl⟩ <;>
    (cases h : readHost cfg (addEvent σ (.uploadCall pid name)) p <;>
      by_cases h2 : cfg.uploadFails name = true <;> simp [h, h2])

theorem opFrame_download (cfg : SyncConfig) (fid : Nat) (σ : SyncState) :
    OpFrame σ (MTPClient.download cfg fid σ).2 := by
  unfold MTPClient.download
  refine ⟨?_, ?_, [.downloadCall fid], ?_, rfl⟩ <;>
    (cases h : lookupA σ.id_map fid <;>
      by_cases h2 : cfg.downloadFails fid = true <;>
      cases h3 : lookupA σ.remote fid <;>
      simp [h, h2, h3])

theorem opFrame_put_path (σ : SyncState) (p : String) (n : Node) :
    OpFrame σ { σ with path_map := putA σ.path_map p n } :=
  ⟨rfl, rfl, [], by simp, rfl⟩

theorem opFrame_put_children (σ : SyncState) (pid : Nat) (k : List (String × Node)) :
    OpFrame σ { σ with children := putA σ.children pid k } :=
  ⟨rfl, rfl, [], by simp, rfl⟩

theorem opFrame_unlink (σ : SyncState) (p : String) : OpFrame σ (unlinkTemp σ p) :=
  ⟨rfl, rfl, [], by simp, rfl⟩

theorem opFrame_ensure_go (cfg : SyncConfig) : ∀ (parts : List String) (cp : String) (ci : Nat)
    (σ : SyncState), OpFrame σ (SyncEngine.ensure_directory_go cfg parts cp ci σ).2
  | [], _, _, σ => OpFrame.refl σ
  | part :: rest, cp, ci, σ => by
    rw [SyncEngine.ensure_directory_go]
    by_cases hp : part = ""
    · simp only [hp, if_true, if_pos]
      exact opFrame_ensure_go cfg rest cp ci σ
    · simp only [hp, if_false, if_neg, not_false_iff]
      cases hl : lookupA σ.path_map (cp ++ "/" ++ part) with
      | some node =>
        simp only [hl]
        exact opFrame_ensure_go cfg rest (cp ++ "/" ++ part) node.id σ
      | none =>
        simp only [hl]
        rcases hmk : MTPClient.mkdir cfg ci part cfg.storage_id σ with ⟨r, σ1⟩
        have hf1 : OpFrame σ σ1 := by
          have := opFrame_mkdir cfg ci part cfg.storage_id σ
          rwa [hmk] at this
        cases r with
        | error e => simpa [hmk] using hf1
        | ok new_id =>
          simp only [hmk]
          exact hf1.trans (opFrame_put_path σ1 (cp ++ "/" ++ part) (.folder new_id))

theorem opFrame_ensure (cfg : SyncConfig) (rel : String) (σ : SyncState) :
    OpFrame σ (SyncEngine.ensure_directory cfg rel σ).2 := by
  unfold SyncEngine.ensure_directory
  by_cases h : (lookupA σ.path_map (normpath (cfg.dest_path ++ "/" ++
      (if endsWithSlash rel then rel else rel ++ "/")))).isSome = true
  · simp only [h, if_true, if_pos]
    exact OpFrame.refl σ
  · simp only [h, if_false, if_neg, not_false_iff]
    exact opFrame_ensure_go cfg _ cfg.dest_path 0 σ

theorem opFrame_sync_file_update (cfg : SyncConfig) (rel : String) (nid pid : Nat)
    (σ : SyncState) : OpFrame σ (SyncEngine.sync_file_update cfg rel nid pid σ).2 := by
  unfold SyncEngine.sync_file_update
  exact opFrame_put_children σ pid _

theorem opFrame_sync_file_validate (cfg : SyncConfig) (rel : String) (nid pid : Nat)
    (σ : SyncState) : OpFrame σ (SyncEngine.sync_file_validate cfg rel nid pid σ).2 := by
  unfold SyncEngine.sync_file_validate
  by_cases hc : cfg.use_checksum = true
  · simp only [hc, if_true, if_pos]
    rcases hdl : MTPClient.download cfg nid σ with ⟨r, σ1⟩
    have hf1 : OpFrame σ σ1 := by
      have := opFrame_download cfg nid σ
      rwa [hdl] at this
    cases r with
    | error e => simpa [hdl] using hf1
    | ok temp_path =>
      simp only [hdl]
      cases h1 : calculate_checksum cfg σ1 (cfg.source_dir ++ "/" ++ rel) with
      | error e => simpa [h1] using hf1
      | ok src =>
        simp only [h1]
        cases h2 : calculate_checksum cfg σ1 temp_path with
        | error e => simpa [h2] using hf1
        | ok dst =>
          simp only [h2]
          by_cases he : ¬ (src = dst)
          · simp only [he, if_true, if_pos]
            exact hf1.trans (opFrame_unlink σ1 temp_path)
          · simp only [he, if_false, if_neg, not_false_iff]
            exact (hf1.trans (opFrame_unlink σ1 temp_path)).trans
              (opFrame_sync_file_update cfg rel nid pid (unlinkTemp σ1 temp_path))
  · simp only [Bool.not_eq_true] at hc
    simp only [hc]
    simp only [Bool.false_eq_true, if_false]
    exact opFrame_sync_file_update cfg rel nid pid σ

theorem opFrame_sync_file (cfg : SyncConfig) (rel : String) (σ : SyncState) :
    OpFrame σ (SyncEngine.sync_file cfg rel σ).2 := by
  unfold SyncEngine.sync_file
  cases hsrc : lookupA cfg.local_tree.entries rel with
  | none => exact OpFrame.refl σ
  | some entry =>
    simp only [hsrc]
    rcases hed : SyncEngine.ensure_directory cfg
        (if dirname rel = "" then "" else dirname rel ++ "/") σ with ⟨ok1, σ1⟩
    have hf1 : OpFrame σ σ1 := by
      have := opFrame_ensure cfg (if dirname rel = "" then "" else dirname rel ++ "/") σ
      rwa [hed] at this
    cases ok1 with
    | false => simpa [hed] using hf1
    | true =>
      simp only [hed]
      cases hpl : lookupA σ1.path_map
          (normpath (cfg.dest_path ++ "/" ++ (if dirname rel = "" then "" else dirname rel ++ "/"))) with
      | none => simpa using hf1
      | some node =>
        cases node with
        | file i s => simpa using hf1
        | folder parent_id =>
          rcases hup : MTPClient.upload cfg (cfg.source_dir ++ "/" ++ rel) parent_id
              (basename rel) σ1 with ⟨r, σ2⟩
          have hf2 : OpFrame σ1 σ2 := by
            have := opFrame_upload cfg (cfg.source_dir ++ "/" ++ rel) parent_id (basename rel) σ1
            rwa [hup] at this
          cases r with
          | error e => simpa [hup] using hf1.trans hf2
          | ok new_id =>
            simp only [hup]
            exact (hf1.trans hf2).trans
              (opFrame_sync_file_validate cfg rel new_id parent_id σ2)

theorem run_dir_phase_bookkeeping (cfg : SyncConfig) : ∀ (l : List (String × String))
    (σ : SyncState),
    (SyncEngine.run_dir_phase cfg l σ).2.planFiles = σ.planFiles ∧
    (SyncEngine.run_dir_phase cfg l σ).2.uuid = σ.uuid
  | [], σ => ⟨rfl, rfl⟩
  | (rel, ty) :: rest, σ => by
    rw [SyncEngine.run_dir_phase]
    by_cases ht : ty = "dir"
    · simp only [ht, if_true, if_pos]
      rcases hed : SyncEngine.ensure_directory cfg rel
          (addEvent σ (.ensureDirCall rel)) with ⟨ok1, σ1⟩
      obtain ⟨hp1, hu1, _⟩ : OpFrame (addEvent σ (.ensureDirCall rel)) σ1 := by
        have := opFrame_ensure cfg rel (addEvent σ (.ensureDirCall rel))
        rwa [hed] at this
      have ih := run_dir_phase_bookkeeping cfg rest σ1
      rcases hrp : SyncEngine.run_dir_phase cfg rest σ1 with ⟨f2, σ2⟩
      rw [hrp] at ih
      simp only [addEvent_planFiles, addEvent_uuid] at hp1 hu1
      exact ⟨ih.1.trans hp1, ih.2.trans hu1⟩
    · simp only [ht, if_false, if_neg, not_false_iff]
      exact run_dir_phase_bookkeeping cfg rest σ

theorem run_file_phase_bookkeeping (cfg : SyncConfig) : ∀ (l : List (String × String))
    (σ : SyncState),
    (SyncEngine.run_file_phase cfg l σ).2.planFiles = σ.planFiles ∧
    (SyncEngine.run_file_phase cfg l σ).2.uuid = σ.uuid
  | [], σ => ⟨rfl, rfl⟩
  | (rel, ty) :: rest, σ => by
    rw [SyncEngine.run_file_phase]
    by_cases ht : ty = "file"
    · simp only [ht, if_true, if_pos]
      rcases hed : SyncEngine.sync_file cfg rel (addEvent σ (.syncFileCall rel)) with ⟨ok1, σ1⟩
      obtain ⟨hp1, hu1, _⟩ : OpFrame (addEvent σ (.syncFileCall rel)) σ1 := by
        have := opFrame_sync_file cfg rel (addEvent σ (.syncFileCall rel))
        rwa [hed] at this
      have ih := run_file_phase_bookkeeping cfg rest σ1
      rcases hrp : SyncEngine.run_file_phase cfg rest σ1 with ⟨f2, σ2⟩
      rw [hrp] at ih
      simp only [addEvent_planFiles, addEvent_uuid] at hp1 hu1
      exact ⟨ih.1.trans hp1, ih.2.trans hu1⟩
    · simp only [ht, if_false, if_neg, not_false_iff]
      exact run_file_phase_bookkeeping cfg rest σ

theorem run_dir_phase_markers (cfg : SyncConfig) : ∀ (l : List (String × String)) (σ : SyncState),
    (SyncEngine.run_dir_phase cfg l σ).2.events.filter isEntryCall =
      σ.events.filter isEntryCall ++
        (l.filter (fun e => e.2 = "dir")).map (fun e => Event.ensureDirCall e.1)
  | [], σ => by simp [SyncEngine.run_dir_phase]
  | (rel, ty) :: rest, σ => by
    rw [SyncEngine.run_dir_phase]
    by_cases ht : ty = "dir"
    · simp only [ht, if_true, if_pos]
      rcases hed : SyncEngine.ensure_directory cfg rel
          (addEvent σ (.ensureDirCall rel)) with ⟨ok1, σ1⟩
      obtain ⟨_, _, lev, hev, hfl⟩ : OpFrame (addEvent σ (.ensureDirCall rel)) σ1 := by
        have := opFrame_ensure cfg rel (addEvent σ (.ensureDirCall rel))
        rwa [hed] at this
      have ih := run_dir_phase_markers cfg rest σ1
      rcases hrp : SyncEngine.run_dir_phase cfg rest σ1 with ⟨f2, σ2⟩
      rw [hrp] at ih
      have h1 : σ1.events.filter isEntryCall =
          σ.events.filter isEntryCall ++ [Event.ensureDirCall rel] := by
        rw [hev]
        simp [List.filter_append, hfl, isEntryCall]
      show σ2.events.filter isEntryCall = _
      rw [ih, h1]
      simp [List.filter_cons, ht]
    · simp only [ht, if_false, if_neg, not_false_iff]
      have ih := run_dir_phase_markers cfg rest σ
      rw [ih]
      simp [List.filter_cons, ht]

theorem run_file_phase_markers (cfg : SyncConfig) : ∀ (l : List (String × String)) (σ : SyncState),
    (SyncEngine.run_file_phase cfg l σ).2.events.filter isEntryCall =
      σ.events.filter isEntryCall ++
        (l.filter (fun e => e.2 = "file")).map (fun e => Event.syncFileCall e.1)
  | [], σ => by simp [SyncEngine.run_file_phase]
  | (rel, ty) :: rest, σ => by
    rw [SyncEngine.run_file_phase]
    by_cases ht : ty = "file"
    · simp only [ht, if_true, if_pos]
      rcases hed : SyncEngine.sync_file cfg rel (addEvent σ (.syncFileCall rel)) with ⟨ok1, σ1⟩
      obtain ⟨_, _, lev, hev, hfl⟩ : OpFrame (addEvent σ (.syncFileCall rel)) σ1 := by
        have := opFrame_sync_file cfg rel (addEvent σ (.syncFileCall rel))
        rwa [hed] at this
      have ih := run_file_phase_markers cfg rest σ1
      rcases hrp : SyncEngine.run_file_phase cfg rest σ1 with ⟨f2, σ2⟩
      rw [hrp] at ih
      have h1 : σ1.events.filter isEntryCall =
          σ.events.filter isEntryCall ++ [Event.syncFileCall rel] := by
        rw [hev]
        simp [List.filter_append, hfl, isEntryCall]
      show σ2.events.filter isEntryCall = _
      rw [ih, h1]
      simp [List.filter_cons, ht]
    · simp only [ht, if_false, if_neg, not_false_iff]
      have ih := run_file_phase_markers cfg rest σ
      rw [ih]
      simp [List.filter_cons, ht]

theorem run_dir_phase_failed_sub (cfg : SyncConfig) : ∀ (l : List (String × String))
    (σ : SyncState) (e : String × String), e ∈ (SyncEngine.run_dir_phase cfg l σ).1 →
    e ∈ l ∧ e.2 = "dir"
  | [], σ, e, h => absurd h (by simp [SyncEngine.run_dir_phase])
  | (rel, ty) :: rest, σ, e, h => by
    rw [SyncEngine.run_dir_phase] at h
    by_cases ht : ty = "dir"
    · subst ht
      rw [if_pos rfl] at h
      rcases hed : SyncEngine.ensure_directory cfg rel (addEvent σ (.ensureDirCall rel)) with ⟨ok1, σ1⟩
      rw [hed] at h
      dsimp only at h
      rcases hrp : SyncEngine.run_dir_phase cfg rest σ1 with ⟨f2, σ2⟩
      rw [hrp] at h
      cases ok1 with
      | true =>
        rw [if_pos rfl] at h
        have := run_dir_phase_failed_sub cfg rest σ1 e (by rw [hrp]; exact h)
        exact ⟨List.mem_cons_of_mem _ this.1, this.2⟩
      | false =>
        rw [if_neg (by simp)] at h
        rcases List.mem_cons.mp h with h | h
        · subst h; exact ⟨List.mem_cons_self _ _, rfl⟩
        · have := run_dir_phase_failed_sub cfg rest σ1 e (by rw [hrp]; exact h)
          exact ⟨List.mem_cons_of_mem _ this.1, this.2⟩
    · rw [if_neg ht] at h
      have := run_dir_phase_failed_sub cfg rest σ e h
      exact ⟨List.mem_cons_of_mem _ this.1, this.2⟩

theorem run_file_phase_failed_sub (cfg : SyncConfig) : ∀ (l : List (String × String))
    (σ : SyncState) (e : String × String), e ∈ (SyncEngine.run_file_phase cfg l σ).1 →
    e ∈ l ∧ e.2 = "file"
  | [], σ, e, h => absurd h (by simp [SyncEngine.run_file_phase])
  | (rel, ty) :: rest, σ, e, h => by
    rw [SyncEngine.run_file_phase] at h
    by_cases ht : ty = "file"
    · subst ht
      rw [if_pos rfl] at h
      rcases hed : SyncEngine.sync_file cfg rel (addEvent σ (.syncFileCall rel)) with ⟨ok1, σ1⟩
      rw [hed] at h
      dsimp only at h
      rcases hrp : SyncEngine.run_file_phase cfg rest σ1 with ⟨f2, σ2⟩
      rw [hrp] at h
      cases ok1 with
      | true =>
        rw [if_pos rfl] at h
        have := run_file_phase_failed_sub cfg rest σ1 e (by rw [hrp]; exact h)
        exact ⟨List.mem_cons_of_mem _ this.1, this.2⟩
      | false =>
        rw [if_neg (by simp)] at h
        rcases List.mem_cons.mp h with h | h
        · subst h; exact ⟨List.mem_cons_self _ _, rfl⟩
        · have := run_file_phase_failed_sub cfg rest σ1 e (by rw [hrp]; exact h)
          exact ⟨List.mem_cons_of_mem _ this.1, this.2⟩
    · rw [if_neg ht] at h
      have := run_file_phase_failed_sub cfg rest σ e h
      exact ⟨List.mem_cons_of_mem _ this.1, this.2⟩


theorem run_dir_phase_append (cfg : SyncConfig) : ∀ (l1 l2 : List (String × String))
    (σ : SyncState),
    SyncEngine.run_dir_phase cfg (l1 ++ l2) σ =
      ((SyncEngine.run_dir_phase cfg l1 σ).1 ++
        (SyncEngine.run_dir_phase cfg l2 (SyncEngine.run_dir_phase cfg l1 σ).2).1,
       (SyncEngine.run_dir_phase cfg l2 (SyncEngine.run_dir_phase cfg l1 σ).2).2)
  | [], l2, σ => by simp [SyncEngine.run_dir_phase]
  | (rel, ty) :: rest, l2, σ => by
    show SyncEngine.run_dir_phase cfg ((rel, ty) :: (rest ++ l2)) σ = _
    rw [SyncEngine.run_dir_phase, SyncEngine.run_dir_phase]
    by_cases ht : ty = "dir"
    · subst ht
      rw [if_pos rfl, if_pos rfl]
      rcases hed : SyncEngine.ensure_directory cfg rel (addEvent σ (.ensureDirCall rel))
        with ⟨ok1, σ1⟩
      dsimp only
      rw [run_dir_phase_append cfg rest l2 σ1]
      rcases hr1 : SyncEngine.run_dir_phase cfg rest σ1 with ⟨fa, σa⟩
      rcases hr2 : SyncEngine.run_dir_phase cfg l2 σa with ⟨fb, σb⟩
      cases ok1 <;> simp
    · rw [if_neg ht, if_neg ht]
      exact run_dir_phase_append cfg rest l2 σ

theorem run_file_phase_append (cfg : SyncConfig) : ∀ (l1 l2 : List (String × String))
    (σ : SyncState),
    SyncEngine.run_file_phase cfg (l1 ++ l2) σ =
      ((SyncEngine.run_file_phase cfg l1 σ).1 ++
        (SyncEngine.run_file_phase cfg l2 (SyncEngine.run_file_phase cfg l1 σ).2).1,
       (SyncEngine.run_file_phase cfg l2 (SyncEngine.run_file_phase cfg l1 σ).2).2)
  | [], l2, σ => by simp [SyncEngine.run_file_phase]
  | (rel, ty) :: rest, l2, σ => by
    show SyncEngine.run_file_phase cfg ((rel, ty) :: (rest ++ l2)) σ = _
    rw [SyncEngine.run_file_phase, SyncEngine.run_file_phase]
    by_cases ht : ty = "file"
    · subst ht
      rw [if_pos rfl, if_pos rfl]
      rcases hed : SyncEngine.sync_file cfg rel (addEvent σ (.syncFileCall rel))
        with ⟨ok1, σ1⟩
      dsimp only
      rw [run_file_phase_append cfg rest l2 σ1]
      rcases hr1 : SyncEngine.run_file_phase cfg rest σ1 with ⟨fa, σa⟩
      rcases hr2 : SyncEngine.run_file_phase cfg l2 σa with ⟨fb, σb⟩
      cases ok1 <;> simp
    · rw [if_neg ht, if_neg ht]
      exact run_file_phase_append cfg rest l2 σ

theorem key_not_in_map {β : Type} {rel : String} {l : List (String × β)}
    (h : rel ∉ l.map Prod.fst) (b : β) : (rel, b) ∉ l := by
  intro hm
  exact h (List.mem_map_of_mem Prod.fst hm)

theorem nodup_split_keys {β : Type} {l1 l2 : List (String × β)} {rel : String} {b : β}
    (hnd : (((l1 ++ (rel, b) :: l2)).map Prod.fst).Nodup) :
    rel ∉ l1.map Prod.fst ∧ rel ∉ l2.map Prod.fst := by
  simp only [List.map_append, List.map_cons] at hnd
  rw [List.nodup_append] at hnd
  obtain ⟨h1, h2, h3⟩ := hnd
  rw [List.nodup_cons] at h2
  constructor
  · intro hmem
    exact h3 hmem (List.mem_cons_self _ _)
  · exact h2.1

theorem run_dir_phase_success_not_failed (cfg : SyncConfig) (l1 l2 : List (String × String))
    (rel : String) (σ : SyncState)
    (hnd : (((l1 ++ (rel, "dir") :: l2)).map Prod.fst).Nodup)
    (hsucc : (SyncEngine.ensure_directory cfg rel
      (addEvent (SyncEngine.run_dir_phase cfg l1 σ).2 (.ensureDirCall rel))).1 = true) :
    (rel, "dir") ∉ (SyncEngine.run_dir_phase cfg (l1 ++ (rel, "dir") :: l2) σ).1 := by
  obtain ⟨hk1, hk2⟩ := nodup_split_keys hnd
  rw [run_dir_phase_append]
  intro hmem
  rcases List.mem_append.mp hmem with h | h
  · exact key_not_in_map hk1 _ ((run_dir_phase_failed_sub cfg l1 σ _ h).1)
  · revert h
    rw [SyncEngine.run_dir_phase]
    rw [if_pos rfl]
    rcases hed : SyncEngine.ensure_directory cfg rel
        (addEvent (SyncEngine.run_dir_phase cfg l1 σ).2 (.ensureDirCall rel)) with ⟨ok1, σ1⟩
    rw [hed] at hsucc
    dsimp only
    rcases hrp : SyncEngine.run_dir_phase cfg l2 σ1 with ⟨f2, σ2⟩
    simp only at hsucc
    subst hsucc
    rw [if_pos rfl]
    intro h
    exact key_not_in_map hk2 _ ((run_dir_phase_failed_sub cfg l2 σ1 _ (by rw [hrp]; exact h)).1)

theorem run_file_phase_success_not_failed (cfg : SyncConfig) (l1 l2 : List (String × String))
    (rel : String) (σ : SyncState)
    (hnd : (((l1 ++ (rel, "file") :: l2)).map Prod.fst).Nodup)
    (hsucc : (SyncEngine.sync_file cfg rel
      (addEvent (SyncEngine.run_file_phase cfg l1 σ).2 (.syncFileCall rel))).1 = true) :
    (rel, "file") ∉ (SyncEngine.run_file_phase cfg (l1 ++ (rel, "file") :: l2) σ).1 := by
  obtain ⟨hk1, hk2⟩ := nodup_split_keys hnd
  rw [run_file_phase_append]
  intro hmem
  rcases List.mem_append.mp hmem with h | h
  · exact key_not_in_map hk1 _ ((run_file_phase_failed_sub cfg l1 σ _ h).1)
  · revert h
    rw [SyncEngine.run_file_phase]
    rw [if_pos rfl]
    rcases hed : SyncEngine.sync_file cfg rel
        (addEvent (SyncEngine.run_file_phase cfg l1 σ).2 (.syncFileCall rel)) with ⟨ok1, σ1⟩
    rw [hed] at hsucc
    dsimp only
    rcases hrp : SyncEngine.run_file_phase cfg l2 σ1 with ⟨f2, σ2⟩
    simp only at hsucc
    subst hsucc
    rw [if_pos rfl]
    intro h
    exact key_not_in_map hk2 _ ((run_file_phase_failed_sub cfg l2 σ1 _ (by rw [hrp]; exact h)).1)

theorem lookupA_putA_self {α β : Type} [DecidableEq α] :
    ∀ (l : List (α × β)) (k : α) (v : β), lookupA (putA l k v) k = some v
  | [], k, v => by simp [putA, lookupA]
  | (k0, v0) :: rest, k, v => by
    by_cases h : k0 = k
    · simp [putA, lookupA, h]
    · simp only [putA, h, if_neg, not_false_iff, if_false]
      simp only [lookupA, h, if_neg, not_false_iff, if_false]
      exact lookupA_putA_self rest k v

theorem execute_plan_cases (cfg : SyncConfig) (plan : List (String × String)) (σ : SyncState) :
    SyncEngine.execute_plan cfg plan σ =
      if (exec_failed cfg plan σ).isEmpty then
        ((true, none), (SyncEngine.run_file_phase cfg plan (SyncEngine.run_dir_phase cfg plan σ).2).2)
      else
        ((false, some (SyncEngine.retry_plan_path σ.uuid)),
          { (SyncEngine.run_file_phase cfg plan (SyncEngine.run_dir_phase cfg plan σ).2).2 with
              uuid := (SyncEngine.run_file_phase cfg plan (SyncEngine.run_dir_phase cfg plan σ).2).2.uuid + 1
              planFiles := putA (SyncEngine.run_file_phase cfg plan (SyncEngine.run_dir_phase cfg plan σ).2).2.planFiles
                (SyncEngine.retry_plan_path σ.uuid) (encode_plan (exec_failed cfg plan σ)) }) := by
  have hu : (SyncEngine.run_file_phase cfg plan (SyncEngine.run_dir_phase cfg plan σ).2).2.uuid
      = σ.uuid := by
    rw [(run_file_phase_bookkeeping cfg plan _).2, (run_dir_phase_bookkeeping cfg plan σ).2]
  rw [SyncEngine.execute_plan]
  rcases h1 : SyncEngine.run_dir_phase cfg plan σ with ⟨f1, σ1⟩
  rcases h2 : SyncEngine.run_file_phase cfg plan σ1 with ⟨f2, σ2⟩
  have he : exec_failed cfg plan σ = f1 ++ f2 := by
    rw [exec_failed, h1]
    show f1 ++ (SyncEngine.run_file_phase cfg plan σ1).1 = _
    rw [h2]
  rw [h1, h2] at hu
  dsimp only
  rw [h2]
  dsimp only
  rw [he]
  simp only at hu
  rw [show SyncEngine.retry_plan_path σ2.uuid = SyncEngine.retry_plan_path σ.uuid by rw [hu]]

/-- C3: retry-plan exactness of `execute` on a loaded plan: it reports
`(False, location)` iff some entry failed, where the location is the fresh
(previously unused) retry path and the persisted document there holds
exactly the failure set; every failed entry is an entry of the plan with
its original kind; success reports `(True, None)` and persists nothing;
and, on plans without duplicate keys, an entry whose processing succeeded
is absent from the failure set. -/
theorem execute_retry_contract (cfg : SyncConfig) (plan : List (String × String)) (σ : SyncState)
    (hfresh : lookupA σ.planFiles (SyncEngine.retry_plan_path σ.uuid) = none) :
    ((SyncEngine.execute_plan cfg plan σ).1.1 = false ∧
        (SyncEngine.execute_plan cfg plan σ).1.2 = some (SyncEngine.retry_plan_path σ.uuid)
      ↔ exec_failed cfg plan σ ≠ []) ∧
    (∀ p, (SyncEngine.execute_plan cfg plan σ).1.2 = some p →
      lookupA σ.planFiles p = none ∧
      lookupA (SyncEngine.execute_plan cfg plan σ).2.planFiles p =
        some (encode_plan (exec_failed cfg plan σ))) ∧
    (∀ e ∈ exec_failed cfg plan σ, e ∈ plan) ∧
    ((SyncEngine.execute_plan cfg plan σ).1.1 = true →
      (SyncEngine.execute_plan cfg plan σ).1.2 = none ∧
      (SyncEngine.execute_plan cfg plan σ).2.planFiles = σ.planFiles) ∧
    (∀ l1 l2 rel, plan = l1 ++ (rel, "dir") :: l2 → ((plan.map Prod.fst).Nodup) →
      (SyncEngine.ensure_directory cfg rel
        (addEvent (SyncEngine.run_dir_phase cfg l1 σ).2 (.ensureDirCall rel))).1 = true →
      (rel, "dir") ∉ exec_failed cfg plan σ) ∧
    (∀ l1 l2 rel, plan = l1 ++ (rel, "file") :: l2 → ((plan.map Prod.fst).Nodup) →
      (SyncEngine.sync_file cfg rel
        (addEvent (SyncEngine.run_file_phase cfg l1 (SyncEngine.run_dir_phase cfg plan σ).2).2
          (.syncFileCall rel))).1 = true →
      (rel, "file") ∉ exec_failed cfg plan σ) := by
  have hpf : (SyncEngine.run_file_phase cfg plan
      (SyncEngine.run_dir_phase cfg plan σ).2).2.planFiles = σ.planFiles := by
    rw [(run_file_phase_bookkeeping cfg plan _).1, (run_dir_phase_bookkeeping cfg plan σ).1]
  refine ⟨?_, ?_, ?_, ?_, ?_, ?_⟩
  · rw [execute_plan_cases]
    by_cases h : (exec_failed cfg plan σ).isEmpty
    · simp [h, List.isEmpty_iff.mp h]
    · simp only [h, if_false, Bool.false_eq_true, if_neg, not_false_iff]
      have hne : exec_failed cfg plan σ ≠ [] := by
        intro hc
        rw [hc] at h
        simp at h
      simp [hne]
  · intro p hp
    rw [execute_plan_cases] at hp ⊢
    by_cases h : (exec_failed cfg plan σ).isEmpty
    · rw [if_pos h] at hp
      exact absurd hp (by simp)
    · rw [if_neg h] at hp ⊢
      simp only at hp
      have hpe : p = SyncEngine.retry_plan_path σ.uuid := by
        cases hp
        rfl
      subst hpe
      refine ⟨hfresh, ?_⟩
      show lookupA (putA _ _ _) _ = _
      rw [hpf]
      exact lookupA_putA_self _ _ _
  · intro e he
    rcases List.mem_append.mp he with h | h
    · exact (run_dir_phase_failed_sub cfg plan σ e h).1
    · exact (run_file_phase_failed_sub cfg plan _ e h).1
  · intro hs
    rw [execute_plan_cases] at hs ⊢
    by_cases h : (exec_failed cfg plan σ).isEmpty
    · rw [if_pos h] at hs ⊢
      exact ⟨rfl, hpf⟩
    · rw [if_neg h] at hs
      exact absurd hs (by simp)
  · intro l1 l2 rel hplan hnd hsucc
    intro hmem
    rcases List.mem_append.mp hmem with h | h
    · rw [hplan] at h
      exact run_dir_phase_success_not_failed cfg l1 l2 rel σ (hplan ▸ hnd) hsucc h
    · exact absurd (run_file_phase_failed_sub cfg plan _ _ h).2 (by simp)
  · intro l1 l2 rel hplan hnd hsucc
    intro hmem
    rcases List.mem_append.mp hmem with h | h
    · exact absurd (run_dir_phase_failed_sub cfg plan σ _ h).2 (by simp)
    · rw [hplan] at h hsucc
      exact run_file_phase_success_not_failed cfg l1 l2 rel
        (SyncEngine.run_dir_phase cfg (l1 ++ (rel, "file") :: l2) σ).2 (hplan ▸ hnd) hsucc h

/-- C4: two-phase execution order: the per-entry processing markers laid
down by `execute` are exactly the plan's `dir` entries (in plan order)
followed by its `file` entries (in plan order), whatever the interleaving
of kinds inside the plan — every `_ensure_directory` call happens strictly
before any `_sync_file` call, and no per-entry failure aborts the run. -/
theorem execute_two_phase_trace (cfg : SyncConfig) (plan : List (String × String))
    (σ : SyncState) :
    (SyncEngine.execute_plan cfg plan σ).2.events.filter isEntryCall =
      σ.events.filter isEntryCall ++
        (plan.filter (fun e => e.2 = "dir")).map (fun e => Event.ensureDirCall e.1) ++
        (plan.filter (fun e => e.2 = "file")).map (fun e => Event.syncFileCall e.1) := by
  have hd := run_dir_phase_markers cfg plan σ
  have hf := run_file_phase_markers cfg plan (SyncEngine.run_dir_phase cfg plan σ).2
  rw [execute_plan_cases]
  by_cases h : (exec_failed cfg plan σ).isEmpty
  · rw [if_pos h]
    show (SyncEngine.run_file_phase cfg plan
      (SyncEngine.run_dir_phase cfg plan σ).2).2.events.filter isEntryCall = _
    rw [hf, hd, List.append_assoc]
  · rw [if_neg h]
    show (SyncEngine.run_file_phase cfg plan
      (SyncEngine.run_dir_phase cfg plan σ).2).2.events.filter isEntryCall = _
    rw [hf, hd, List.append_assoc]

theorem download_maps (cfg : SyncConfig) (fid : Nat) (σ : SyncState) :
    (MTPClient.download cfg fid σ).2.path_map = σ.path_map ∧
    (MTPClient.download cfg fid σ).2.id_map = σ.id_map := by
  unfold MTPClient.download
  constructor <;>
    (cases h : lookupA σ.id_map fid <;>
      by_cases h2 : cfg.downloadFails fid = true <;>
      cases h3 : lookupA σ.remote fid <;>
      simp [h, h2, h3])

theorem compare_file_maps (cfg : SyncConfig) (rel dest : String) (σ : SyncState)
    (b : Bool) (σ' : SyncState)
    (h : SyncEngine.compare_file cfg rel dest σ = .ok (b, σ')) :
    σ'.path_map = σ.path_map ∧ σ'.id_map = σ.id_map := by
  unfold SyncEngine.compare_file at h
  cases hl : lookupA σ.path_map dest with
  | none =>
    rw [hl] at h
    cases h
    exact ⟨rfl, rfl⟩
  | some node =>
    rw [hl] at h
    cases node with
    | folder i =>
      dsimp only at h
      cases h
      exact ⟨rfl, rfl⟩
    | file fid fsize =>
      dsimp only at h
      by_cases hc : cfg.use_checksum = true
      · rw [if_neg (by simp [hc])] at h
        rcases hdl : MTPClient.download cfg fid σ with ⟨r, σ1⟩
        have hm1 : σ1.path_map = σ.path_map ∧ σ1.id_map = σ.id_map := by
          have := download_maps cfg fid σ
          rwa [hdl] at this
        rw [hdl] at h
        cases r with
        | error e =>
          cases h
          exact hm1
        | ok temp_path =>
          dsimp only at h
          cases h1 : calculate_checksum cfg σ1 (cfg.source_dir ++ "/" ++ rel) with
          | error e =>
            rw [h1] at h
            cases h
            exact hm1
          | ok src =>
            rw [h1] at h
            cases h2 : calculate_checksum cfg σ1 temp_path with
            | error e =>
              rw [h2] at h
              cases h
              exact hm1
            | ok dst =>
              rw [h2] at h
              cases h
              simpa using hm1
      · simp only [Bool.not_eq_true] at hc
        rw [if_pos (by simp [hc])] at h
        cases hs : sourceRead cfg (cfg.source_dir ++ "/" ++ rel) with
        | none =>
          rw [hs] at h
          cases h
        | some c =>
          rw [hs] at h
          cases h
          exact ⟨rfl, rfl⟩

theorem verify_loop_maps (cfg : SyncConfig) : ∀ (l plan : List (String × String)) (σ : SyncState)
    (out : List (String × String)) (σ' : SyncState),
    SyncEngine.verify_loop cfg l plan σ = .ok (out, σ') →
    σ'.path_map = σ.path_map ∧ σ'.id_map = σ.id_map
  | [], plan, σ, out, σ', h => by
    rw [SyncEngine.verify_loop] at h
    cases h
    exact ⟨rfl, rfl⟩
  | (rel, ty) :: rest, plan, σ, out, σ', h => by
    rw [SyncEngine.verify_loop] at h
    by_cases hex : SyncEngine.path_exists_in_dest σ
        (normpath (cfg.dest_path ++ "/" ++ rel)) = true
    · rw [if_pos hex] at h
      by_cases ht : ty = "file"
      · rw [if_pos ht] at h
        cases hcf : SyncEngine.compare_file cfg rel
            (normpath (cfg.dest_path ++ "/" ++ rel)) σ with
        | error e =>
          rw [hcf] at h
          cases h
        | ok pr =>
          rcases pr with ⟨same, σ1⟩
          rw [hcf] at h
          have hm1 := compare_file_maps cfg rel _ σ same σ1 hcf
          dsimp only at h
          cases same with
          | true =>
            rw [if_pos rfl] at h
            have := verify_loop_maps cfg rest plan σ1 out σ' h
            exact ⟨this.1.trans hm1.1, this.2.trans hm1.2⟩
          | false =>
            rw [if_neg (by simp)] at h
            have := verify_loop_maps cfg rest (plan ++ [(rel, "file")]) σ1 out σ' h
            exact ⟨this.1.trans hm1.1, this.2.trans hm1.2⟩
      · rw [if_neg ht] at h
        exact verify_loop_maps cfg rest plan σ out σ' h
    · rw [if_neg hex] at h
      exact verify_loop_maps cfg rest (plan ++ [(rel, ty)]) σ out σ' h

/-- C9: the diff flow is read-only on the remote index: whenever `verify`
returns, `path_map` and `id_map` equal their pre-call values, in both the
size-only and the checksum comparison modes (the latter downloads scratch
copies but never touches the indexes). -/
theorem verify_preserves_index (cfg : SyncConfig) (plan_path : String) (σ : SyncState)
    (p : String) (σ' : SyncState)
    (h : SyncEngine.verify cfg plan_path σ = .ok (p, σ')) :
    σ'.path_map = σ.path_map ∧ σ'.id_map = σ.id_map := by
  unfold SyncEngine.verify at h
  cases hs : SyncEngine.scan_source_directory cfg with
  | error e =>
    rw [hs] at h
    cases h
  | ok source_map =>
    rw [hs] at h
    dsimp only at h
    cases hv : SyncEngine.verify_loop cfg source_map [] σ with
    | error e =>
      rw [hv] at h
      cases h
    | ok pr =>
      rcases pr with ⟨ep, σ1⟩
      rw [hv] at h
      cases h
      simpa using verify_loop_maps cfg source_map [] σ ep σ1 hv

theorem download_missing_id (cfg : SyncConfig) (fid : Nat) (σ : SyncState)
    (h : lookupA σ.id_map fid = none) :
    (MTPClient.download cfg fid σ).1 = .error (.valueError "file id not found") := by
  unfold MTPClient.download
  simp [h]

/-! ### Helper lemmas and the claim theorems -/

theorem lookupA_eq_none_of_not_mem {α β : Type} [DecidableEq α] :
    ∀ (l : List (α × β)) (k : α), k ∉ l.map Prod.fst → lookupA l k = none
  | [], _, _ => rfl
  | (k0, v0) :: rest, k, h => by
    have hk : ¬ k0 = k := by
      intro he
      exact h (by simp [he])
    simp only [lookupA, hk, if_neg, not_false_iff, if_false]
    exact lookupA_eq_none_of_not_mem rest k (fun hm => h (by simp [hm]))

theorem lookupA_removeA_self {α β : Type} [DecidableEq α] :
    ∀ (l : List (α × β)) (k : α), (l.map Prod.fst).Nodup →
      lookupA (removeA l k) k = none
  | [], _, _ => rfl
  | (k0, v0) :: rest, k, h => by
    have h' : (k0 :: rest.map Prod.fst).Nodup := by simpa using h
    rcases List.nodup_cons.mp h' with ⟨h1, h2⟩
    by_cases hk : k0 = k
    · subst hk
      simp only [removeA, if_pos rfl]
      exact lookupA_eq_none_of_not_mem rest k0 h1
    · simp only [removeA, hk, if_neg, not_false_iff, if_false, lookupA]
      exact lookupA_removeA_self rest k h2

theorem sync_file_validate_fst (cfg : SyncConfig) (rel : String) (nid pid : Nat)
    (σ : SyncState) : (SyncEngine.sync_file_validate cfg rel nid pid σ).1 = false := by
  rw [SyncEngine.sync_file_validate]
  split
  · split
    · rfl
    · split
      · rfl
      · split
        · rfl
        · split
          · rfl
          · rfl
  · rfl

theorem sync_file_fst (cfg : SyncConfig) (rel : String) (σ : SyncState) :
    (SyncEngine.sync_file cfg rel σ).1 = false := by
  rw [SyncEngine.sync_file]
  split
  · rfl
  · dsimp only
    split
    · rfl
    · split
      · rfl
      · rfl
      · split
        · rfl
        · exact sync_file_validate_fst _ _ _ _ _

/-- C1: the spec's idempotence guarantee is unattainable: `_sync_file`
never reports success (the un-imported `IDEntry` name raises `NameError`
on every path that would reach `return True`), so on the cooperative
one-file scenario `execute` returns `(False, retry-location)` on the plan
`verify` produced, and a second `verify` against the post-`execute` state
re-emits exactly the same non-empty plan: the diff never becomes empty
after an execute, and `execute` cannot return `(True, None)` on any plan
containing a file entry. -/
theorem verify_execute_fixpoint_unreachable :
    (∀ (cfg : SyncConfig) (rel : String) (σ : SyncState),
      (SyncEngine.sync_file cfg rel σ).1 = false) ∧
    SyncEngine.verify exCfg "plan.json" exState = .ok ("plan.json", exStateV) ∧
    lookupA exStateV.planFiles "plan.json" = some (encode_plan [("file1.txt", "file")]) ∧
    SyncEngine.execute exCfg "plan.json" exStateV =
      .ok ((false, some "data/.execution_retry/7.json"), exStateE) ∧
    SyncEngine.verify exCfg "plan2.json" exStateE = .ok ("plan2.json", exStateE2) ∧
    lookupA exStateE2.planFiles "plan2.json" = some (encode_plan [("file1.txt", "file")]) :=
  ⟨sync_file_fst, by decide, by decide, by decide, by decide, by decide⟩

/-- C2: `_sync_file` never reports success, and even its map-update block
(the code that would run on success) registers the new file only in the
parent's `children`, never in `path_map` (the computed `dest_full_path` is
a dead store) nor in `id_map` (the `IDEntry` constructor is unreachable:
the name is never imported).  Concretely, the cooperative run over `exCfg`
uploads the bytes to the device (id 1000 appears in `remote`) yet reports
failure and leaves both indexes without the new node. -/
theorem sync_file_success_unobservable :
    (∀ (cfg : SyncConfig) (rel : String) (σ : SyncState),
      (SyncEngine.sync_file cfg rel σ).1 = false) ∧
    (∀ (cfg : SyncConfig) (rel : String) (nid pid : Nat) (σ : SyncState),
      (SyncEngine.sync_file_update cfg rel nid pid σ).1 = false ∧
      (SyncEngine.sync_file_update cfg rel nid pid σ).2.path_map = σ.path_map ∧
      (SyncEngine.sync_file_update cfg rel nid pid σ).2.id_map = σ.id_map) ∧
    (SyncEngine.sync_file exCfg "file1.txt" exState).2.path_map = exState.path_map ∧
    lookupA (SyncEngine.sync_file exCfg "file1.txt" exState).2.id_map 1000 = none ∧
    lookupA (SyncEngine.sync_file exCfg "file1.txt" exState).2.remote 1000 = some [1, 2, 3] :=
  ⟨sync_file_fst, fun _ _ _ _ _ => ⟨rfl, rfl, rfl⟩, by decide, by decide, by decide⟩

/-- C6: `_ensure_directory` is not idempotent and its second call is not a
device-free no-op: on `a/b/` the first call creates segment `a` on the
device and then fails (the `NameError` at the `IDEntry` use aborts the
walk), and the second call performs a fresh device-side `mkdir` for
segment `b` and fails again, instead of returning a no-op success. -/
theorem ensure_directory_second_call_not_noop :
    (SyncEngine.ensure_directory exCfg2 "a/b/" exState).1 = false ∧
    exStateD1.events = [.mkdirCall 0 "a"] ∧
    (SyncEngine.ensure_directory exCfg2 "a/b/" exStateD1).1 = false ∧
    (SyncEngine.ensure_directory exCfg2 "a/b/" exStateD1).2.events =
      [.mkdirCall 0 "a", .mkdirCall 1000 "b"] :=
  ⟨by decide, by decide, by decide, by decide⟩

/-- C5 (counterexample): in checksum mode a digest error does not delete
the downloaded scratch copy: with the scratch read failing (`exCfg5`),
`_compare_file` returns "not equal" non-fatally but the scratch file
`/tmp/mtpsync/a.txt` is still present afterwards — `_compare_file` has no
`finally`, so deletion only happens on the fully successful path. -/
theorem compare_file_digest_error_keeps_scratch :
    SyncEngine.compare_file exCfg5 "a.txt" "/dst/a.txt" exState5 = .ok (false, exState5C) ∧
    lookupA exState5C.temp "/tmp/mtpsync/a.txt" = some [9, 9, 9] :=
  ⟨by decide, by decide⟩

theorem mem_putA_keys {α β : Type} [DecidableEq α] :
    ∀ (l : List (α × β)) (k : α) (v : β) (a : α),
      a ∈ (putA l k v).map Prod.fst → a ∈ l.map Prod.fst ∨ a = k
  | [], k, v, a, h => by
    simp only [putA, List.map_cons, List.map_nil, List.mem_singleton] at h
    exact Or.inr h
  | (k0, v0) :: rest, k, v, a, h => by
    by_cases hk : k0 = k
    · subst hk
      rw [show putA ((k0, v0) :: rest) k0 v = (k0, v) :: rest from by simp [putA]] at h
      simp only [List.map_cons, List.mem_cons] at h
      rcases h with h | h
      · exact Or.inr h
      · exact Or.inl (by simp only [List.map_cons, List.mem_cons]; exact Or.inr h)
    · simp only [putA, hk, if_neg, not_false_iff, if_false, List.map_cons,
        List.mem_cons] at h
      rcases h with h | h
      · exact Or.inl (by simp only [List.map_cons, List.mem_cons]; exact Or.inl h)
      · rcases mem_putA_keys rest k v a h with h | h
        · exact Or.inl (by simp only [List.map_cons, List.mem_cons]; exact Or.inr h)
        · exact Or.inr h

theorem putA_keys_nodup {α β : Type} [DecidableEq α] :
    ∀ (l : List (α × β)) (k : α) (v : β), (l.map Prod.fst).Nodup →
      ((putA l k v).map Prod.fst).Nodup
  | [], k, v, _ => by simp [putA]
  | (k0, v0) :: rest, k, v, h => by
    have h' : (k0 :: rest.map Prod.fst).Nodup := by simpa using h
    rcases List.nodup_cons.mp h' with ⟨h1, h2⟩
    by_cases hk : k0 = k
    · simpa [putA, hk] using h
    · simp only [putA, hk, if_neg, not_false_iff, if_false, List.map_cons]
      refine List.nodup_cons.mpr ⟨?_, putA_keys_nodup rest k v h2⟩
      intro hmem
      rcases mem_putA_keys rest k v k0 hmem with hm | hm
      · exact h1 hm
      · exact hk hm

/-- C5 (amended): what `_compare_file` actually guarantees in checksum
mode on an indexed file whose download succeeds.  On the fully successful
path the scratch copy is deleted and the result is the digest comparison;
but when computing either digest errors (source read failing, or the
scratch read failing), the comparison is treated as "not equal" and is not
fatal (an `.ok false` result), while the downloaded scratch copy is
retained — deletion is guaranteed only on the success path, not on every
exit path. -/
theorem compare_file_scratch_contract (cfg : SyncConfig) (rel dest tmp : String)
    (σ : SyncState) (fid fsize : Nat) (entry : IDEntry) (content : List Nat)
    (hck : cfg.use_checksum = true)
    (hnd : (σ.temp.map Prod.fst).Nodup)
    (hnode : lookupA σ.path_map dest = some (.file fid fsize))
    (hentry : lookupA σ.id_map fid = some entry)
    (hdl : cfg.downloadFails fid = false)
    (hremote : lookupA σ.remote fid = some content)
    (htmp : tmp = TEMP_DIR ++ "/" ++ basename entry.full_path) :
    (∀ d : Nat,
      cfg.readFails tmp = false →
      calculate_checksum cfg (writeTemp (addEvent σ (.downloadCall fid)) tmp content)
          (cfg.source_dir ++ "/" ++ rel) = .ok d →
      SyncEngine.compare_file cfg rel dest σ =
        .ok (((d = cfg.hash content) : Bool),
          unlinkTemp (writeTemp (addEvent σ (.downloadCall fid)) tmp content) tmp) ∧
      lookupA (unlinkTemp (writeTemp (addEvent σ (.downloadCall fid)) tmp content) tmp).temp
        tmp = none) ∧
    (∀ e : PyErr,
      calculate_checksum cfg (writeTemp (addEvent σ (.downloadCall fid)) tmp content)
          (cfg.source_dir ++ "/" ++ rel) = .error e →
      SyncEngine.compare_file cfg rel dest σ =
        .ok (false, writeTemp (addEvent σ (.downloadCall fid)) tmp content) ∧
      lookupA (writeTemp (addEvent σ (.downloadCall fid)) tmp content).temp tmp =
        some content) ∧
    (cfg.readFails tmp = true →
      SyncEngine.compare_file cfg rel dest σ =
        .ok (false, writeTemp (addEvent σ (.downloadCall fid)) tmp content) ∧
      lookupA (writeTemp (addEvent σ (.downloadCall fid)) tmp content).temp tmp =
        some content) := by
  subst htmp
  have hdown : MTPClient.download cfg fid σ =
      (.ok (TEMP_DIR ++ "/" ++ basename entry.full_path),
        writeTemp (addEvent σ (.downloadCall fid))
          (TEMP_DIR ++ "/" ++ basename entry.full_path) content) := by
    unfold MTPClient.download
    simp [hentry, hdl, hremote]
  have hlookup : lookupA (writeTemp (addEvent σ (.downloadCall fid))
      (TEMP_DIR ++ "/" ++ basename entry.full_path) content).temp
      (TEMP_DIR ++ "/" ++ basename entry.full_path) = some content := by
    show lookupA (putA _ _ _) _ = _
    exact lookupA_putA_self _ _ _
  have hbody : ∀ r : Except PyErr (Bool × SyncState),
      (match calculate_checksum cfg (writeTemp (addEvent σ (.downloadCall fid))
          (TEMP_DIR ++ "/" ++ basename entry.full_path) content)
          (cfg.source_dir ++ "/" ++ rel) with
        | .error _ => .ok (false, writeTemp (addEvent σ (.downloadCall fid))
            (TEMP_DIR ++ "/" ++ basename entry.full_path) content)
        | .ok src_checksum =>
          match calculate_checksum cfg (writeTemp (addEvent σ (.downloadCall fid))
              (TEMP_DIR ++ "/" ++ basename entry.full_path) content)
              (TEMP_DIR ++ "/" ++ basename entry.full_path) with
          | .error _ => .ok (false, writeTemp (addEvent σ (.downloadCall fid))
              (TEMP_DIR ++ "/" ++ basename entry.full_path) content)
          | .ok dest_checksum =>
            .ok (((src_checksum = dest_checksum) : Bool),
              unlinkTemp (writeTemp (addEvent σ (.downloadCall fid))
                (TEMP_DIR ++ "/" ++ basename entry.full_path) content)
                (TEMP_DIR ++ "/" ++ basename entry.full_path)) :
          Except PyErr (Bool × SyncState)) = r →
      SyncEngine.compare_file cfg rel dest σ = r := by
    intro r hr
    unfold SyncEngine.compare_file
    simp only [hnode]
    rw [if_neg (by simp [hck]), hdown]
    exact hr
  refine ⟨?_, ?_, ?_⟩
  · intro d hrf hsrc
    have htc : calculate_checksum cfg (writeTemp (addEvent σ (.downloadCall fid))
        (TEMP_DIR ++ "/" ++ basename entry.full_path) content)
        (TEMP_DIR ++ "/" ++ basename entry.full_path) = .ok (cfg.hash content) := by
      unfold calculate_checksum readHost
      rw [if_neg (by simp [hrf]), hlookup]
    refine ⟨hbody _ ?_, ?_⟩
    · rw [hsrc, htc]
    · show lookupA (removeA _ _) _ = _
      exact lookupA_removeA_self _ _ (putA_keys_nodup _ _ _ hnd)
  · intro e hsrc
    refine ⟨hbody _ ?_, hlookup⟩
    rw [hsrc]
  · intro hrf
    have htc : calculate_checksum cfg (writeTemp (addEvent σ (.downloadCall fid))
        (TEMP_DIR ++ "/" ++ basename entry.full_path) content)
        (TEMP_DIR ++ "/" ++ basename entry.full_path) =
        .error (.ioError (TEMP_DIR ++ "/" ++ basename entry.full_path)) := by
      unfold calculate_checksum
      rw [hrf]
      rfl
    refine ⟨hbody _ ?_, hlookup⟩
    cases hsrc : calculate_checksum cfg (writeTemp (addEvent σ (.downloadCall fid))
        (TEMP_DIR ++ "/" ++ basename entry.full_path) content)
        (cfg.source_dir ++ "/" ++ rel) with
    | error e => rfl
    | ok d => rw [htc]

/-- C5 witness. -/
theorem compare_file_scratch_contract_witness :
    SyncEngine.compare_file exCfg5b "a.txt" "/dst/a.txt" exState5 =
      .ok ((((123 : Nat) = exCfg5b.hash [9, 9, 9]) : Bool),
        unlinkTemp exScratch5 "/tmp/mtpsync/a.txt") ∧
    lookupA (unlinkTemp exScratch5 "/tmp/mtpsync/a.txt").temp "/tmp/mtpsync/a.txt" = none :=
  (compare_file_scratch_contract exCfg5b "a.txt" "/dst/a.txt" "/tmp/mtpsync/a.txt" exState5
      5 3 exEntry5 [9, 9, 9] (by decide) (by decide) (by decide) (by decide) (by decide)
      (by decide) (by decide)).1 123 (by decide) (by decide)

/-- C7: the retry wrapper's contract. -/
theorem with_retry_contract {ε α : Type} (maxR : Nat) (b : ℚ) (retryable : ε → Bool)
    (jitter : Nat → ℚ) (op : Nat → Outcome ε α) :
    (with_retry maxR b retryable jitter op).calls ≤ maxR + 1 ∧
    (∃ n, (with_retry maxR b retryable jitter op).sleeps = sleepSpec b jitter n) ∧
    ((∀ i, i ≤ maxR → ∃ e, op i = .err e ∧ retryable e = true) →
      ∀ e, op maxR = .err e →
        (with_retry maxR b retryable jitter op).result = .err e ∧
        (with_retry maxR b retryable jitter op).calls = maxR + 1) ∧
    (∀ e, op 0 = .err e → retryable e = false →
      with_retry maxR b retryable jitter op = ⟨.err e, 1, []⟩) := by
  refine ⟨?_, ?_, ?_, ?_⟩
  · have h := retryGo_calls_le maxR b retryable jitter op (maxR + 1) 0 0 [] none
    simpa [with_retry] using h
  · have h := retryGo_sleeps_spec maxR b retryable jitter op (maxR + 1) 0 0 none
    simpa [with_retry, sleepSpec] using h
  · exact with_retry_all_fail maxR b retryable jitter op
  · exact with_retry_nonretryable maxR b retryable jitter op

/-- C7 witness. -/
theorem with_retry_contract_witness :
    (with_retry 1 2 (fun _ => true) (fun _ => 0)
        (fun _ => (Outcome.err 0 : Outcome Nat Nat))).result = .err 0 ∧
    (with_retry 1 2 (fun _ => true) (fun _ => 0)
        (fun _ => (Outcome.err 0 : Outcome Nat Nat))).calls = 1 + 1 :=
  (with_retry_contract 1 2 (fun _ => true) (fun _ => 0)
      (fun _ => (Outcome.err 0 : Outcome Nat Nat))).2.2.1
    (fun _ _ => ⟨0, rfl, rfl⟩) 0 rfl

/-- C8: plan persistence round trip. -/
theorem plan_round_trip (m : List (String × String))
    (_hvals : ∀ kv ∈ m, kv.2 = "file" ∨ kv.2 = "dir")
    (_hkeys : (m.map Prod.fst).Nodup) :
    parse_plan (encode_plan m) = some m :=
  parse_plan_encode_plan m

/-- C8 witness. -/
theorem plan_round_trip_witness :
    parse_plan (encode_plan [("file1.txt", "file"), ("subdir/", "dir")]) =
      some [("file1.txt", "file"), ("subdir/", "dir")] :=
  plan_round_trip [("file1.txt", "file"), ("subdir/", "dir")] (by decide) (by decide)

/-- C10: default retryable set and wrapped device operations. -/
theorem wrapped_ops_retry_nontransient :
    (∀ e : PyErr, defaultRetryable e = true) ∧
    (∀ (cfg : SyncConfig) (σ : SyncState) (fid : Nat) (j : Nat → ℚ),
      lookupA σ.id_map fid = none →
      (MTPClient.download_wrapped cfg fid σ j).result =
        .err (.valueError "file id not found") ∧
      (MTPClient.download_wrapped cfg fid σ j).calls = MAX_RETRIES + 1) ∧
    (∀ (cfg : SyncConfig) (σ : SyncState) (pid sid : Nat) (name : String) (j : Nat → ℚ),
      cfg.mkdirFails name = true →
      (MTPClient.mkdir_wrapped cfg pid name sid σ j).result =
        .err (.runtimeError "failed to create folder") ∧
      (MTPClient.mkdir_wrapped cfg pid name sid σ j).calls = MAX_RETRIES + 1) ∧
    (∀ (cfg : SyncConfig) (σ : SyncState) (p name : String) (pid : Nat) (j : Nat → ℚ),
      readHost cfg σ p = none →
      (MTPClient.upload_wrapped cfg p pid name σ j).result = .err (.fileNotFound p) ∧
      (MTPClient.upload_wrapped cfg p pid name σ j).calls = MAX_RETRIES + 1) := by
  refine ⟨fun _ => rfl, ?_, ?_, ?_⟩
  · intro cfg σ fid j h
    have hop : Outcome.ofExcept (MTPClient.download cfg fid σ).1 =
        (Outcome.err (.valueError "file id not found") : Outcome PyErr String) := by
      rw [download_missing_id cfg fid σ h]
      rfl
    unfold MTPClient.download_wrapped
    exact with_retry_all_fail _ _ _ _ _ (fun _ _ => ⟨_, hop, rfl⟩) _ hop
  · intro cfg σ pid sid name j h
    have hop : Outcome.ofExcept (MTPClient.mkdir cfg pid name sid σ).1 =
        (Outcome.err (.runtimeError "failed to create folder") : Outcome PyErr Nat) := by
      unfold MTPClient.mkdir
      simp only [h, if_true]
      rfl
    unfold MTPClient.mkdir_wrapped
    exact with_retry_all_fail _ _ _ _ _ (fun _ _ => ⟨_, hop, rfl⟩) _ hop
  · intro cfg σ p name pid j h
    have hop : Outcome.ofExcept (MTPClient.upload cfg p pid name σ).1 =
        (Outcome.err (.fileNotFound p) : Outcome PyErr Nat) := by
      unfold MTPClient.upload
      dsimp only
      rw [show readHost cfg (addEvent σ (.uploadCall pid name)) p = none from h]
      rfl
    unfold MTPClient.upload_wrapped
    exact with_retry_all_fail _ _ _ _ _ (fun _ _ => ⟨_, hop, rfl⟩) _ hop

/-- C10 witness. -/
theorem wrapped_ops_retry_nontransient_witness :
    (MTPClient.download_wrapped exCfg 42 exState0 (fun _ => 0)).result =
      .err (.valueError "file id not found") ∧
    (MTPClient.download_wrapped exCfg 42 exState0 (fun _ => 0)).calls = MAX_RETRIES + 1 :=
  wrapped_ops_retry_nontransient.2.1 exCfg exState0 42 (fun _ => 0) (by decide)

/-- C3 witness. -/
theorem execute_retry_contract_witness :
    ((SyncEngine.execute_plan exCfg [("file1.txt", "file")] exState).1.1 = false ∧
        (SyncEngine.execute_plan exCfg [("file1.txt", "file")] exState).1.2 =
          some (SyncEngine.retry_plan_path exState.uuid)
      ↔ exec_failed exCfg [("file1.txt", "file")] exState ≠ []) :=
  (execute_retry_contract exCfg [("file1.txt", "file")] exState (by decide)).1

/-- C9 witness. -/
theorem verify_preserves_index_witness :
    exStateV.path_map = exState.path_map ∧ exStateV.id_map = exState.id_map :=
  verify_preserves_index exCfg "plan.json" exState "plan.json" exStateV (by decide)
